import Mathlib

/-!
GraphQL resolvers and insights pagination of mattermost-server.

A shallow embedding of `api4/resolver.go`, `api4/resolver_channel_member.go`
and `model/insights.go`, followed by theorems about cursors, ranked
pagination, the authorization gate and the role batch loader.

Go strings are byte sequences; a byte is a `Fin 256`.  Go `int` is a 64-bit
two's-complement integer: values are `Int`, and every arithmetic result is
brought back into range by `wrapInt`.  A slice of pointers is a list of
addresses into a heap, `none` standing for `nil`; a run-time panic is an
outcome of its own.
-/

/-- A byte of a Go string. -/
abbrev Byte := Fin 256

/-- A Go `string`: an immutable sequence of bytes. -/
abbrev GoString := List Byte

/-! ## `encoding/base64`, `StdEncoding` (Go standard library) -/

namespace base64

/-- The constant `encodeStd`:
`ABCDEFGHIJKLMNOPQRSTUVWXYZabcdefghijklmnopqrstuvwxyz0123456789+/`. -/
def encodeStd : List Byte :=
  [65, 66, 67, 68, 69, 70, 71, 72, 73, 74, 75, 76, 77, 78, 79, 80, 81, 82, 83, 84, 85, 86, 87, 88, 89, 90,
   97, 98, 99, 100, 101, 102, 103, 104, 105, 106, 107, 108, 109, 110, 111, 112, 113, 114, 115, 116, 117,
   118, 119, 120, 121, 122,
   48, 49, 50, 51, 52, 53, 54, 55, 56, 57,
   43, 47]

/-- The constant `StdPadding`, the character `=`. -/
def padChar : Byte := 61

/-- The table `enc.encode`: the alphabet character of a 6-bit value. -/
def encode (v : Nat) : Byte := encodeStd.getD v 0

/-- The table `enc.decodeMap`, built by `NewEncoding`: `0xff` everywhere,
then `decodeMap[encoder[i]] = i` for each of the 64 alphabet characters. -/
def decodeMap (c : Byte) : Nat :=
  let i := encodeStd.indexOf c
  if i < 64 then i else 0xff

/-- The method `Encoding.Encode` with `StdEncoding`: three source bytes become four
alphabet characters; a final block of one or two bytes is padded with `=`. -/
def EncodeToString : GoString → GoString
  | b0 :: b1 :: b2 :: rest =>
    let val := b0.val <<< 16 ||| b1.val <<< 8 ||| b2.val
    encode (val >>> 18 &&& 0x3F) :: encode (val >>> 12 &&& 0x3F) ::
      encode (val >>> 6 &&& 0x3F) :: encode (val &&& 0x3F) :: EncodeToString rest
  | [b0, b1] =>
    let val := b0.val <<< 16 ||| b1.val <<< 8
    [encode (val >>> 18 &&& 0x3F), encode (val >>> 12 &&& 0x3F), encode (val >>> 6 &&& 0x3F), padChar]
  | [b0] =>
    let val := b0.val <<< 16
    [encode (val >>> 18 &&& 0x3F), encode (val >>> 12 &&& 0x3F), padChar, padChar]
  | [] => []

/-- The tail of `decodeQuantum`: the four 6-bit values of `dbuf` (missing
ones are zero) are packed into `val`, of which the first `dlen - 1` bytes
are written to the destination. -/
def quantumBytes (dbuf : List Nat) : List Byte :=
  let val := dbuf.getD 0 0 <<< 18 ||| dbuf.getD 1 0 <<< 12 ||| dbuf.getD 2 0 <<< 6 ||| dbuf.getD 3 0
  [Fin.ofNat (val >>> 16), Fin.ofNat (val >>> 8), Fin.ofNat (val >>> 0)].take (dbuf.length - 1)

/-- The loops `for si < len(src) && (src[si] == '\n' || src[si] == '\r')`. -/
def skipNewlines : GoString → GoString
  | c :: rest => if c = 10 ∨ c = 13 then skipNewlines rest else c :: rest
  | [] => []

/-- The padding branch of `decodeQuantum`, entered after a first `=` has
been consumed with `j = dbuf.length` values collected; `src` is what
follows that `=`.  Returns the bytes of the last quantum. -/
def decodePadding (dbuf : List Nat) (src : GoString) : Option (List Byte) :=
  if dbuf.length = 0 ∨ dbuf.length = 1 then none
  else
    let afterPad : Option GoString :=
      if dbuf.length = 2 then
        match skipNewlines src with
        | [] => none
        | c :: rest => if c ≠ padChar then none else some rest
      else some src
    match afterPad with
    | none => none
    | some src2 =>
      match skipNewlines src2 with
      | [] => some (quantumBytes dbuf)
      | _ :: _ => none

/-- The method `Encoding.Decode` with `StdEncoding` (padded, not strict): the repeated
`decodeQuantum` over the source, with `dbuf` the 6-bit values collected for
the current quantum and `dst` the bytes decoded so far.  `none` stands for
a `CorruptInputError`. -/
def decodeLoop : GoString → List Nat → List Byte → Option (List Byte)
  | [], dbuf, dst => if dbuf.length = 0 then some dst else none
  | c :: rest, dbuf, dst =>
    let out := decodeMap c
    if out ≠ 0xff then
      if dbuf.length = 3 then decodeLoop rest [] (dst ++ quantumBytes (dbuf ++ [out]))
      else decodeLoop rest (dbuf ++ [out]) dst
    else if c = 10 ∨ c = 13 then decodeLoop rest dbuf dst
    else if c ≠ padChar then none
    else (decodePadding dbuf rest).map (fun last => dst ++ last)

/-- The method `Encoding.DecodeString` with `StdEncoding`; `none` when `err != nil`. -/
def DecodeString (s : GoString) : Option GoString := decodeLoop s [] []

end base64

/-! ## `strings` (Go standard library) -/

namespace strings

/-- The function `strings.Split(s, sep)` for a separator of one byte: the pieces of `s`
between the occurrences of `sep`, always at least one piece. -/
def Split : GoString → Byte → List GoString
  | [], _ => [[]]
  | c :: rest, sep =>
    if c = sep then [] :: Split rest sep
    else
      match Split rest sep with
      | [] => [[c]]
      | p :: ps => (c :: p) :: ps

end strings

/-! ## Cursors (`api4/resolver.go`, `api4/resolver_channel_member.go`) -/

/-- The constant `channelMemberCursorPrefix`, the text `channelMember`. -/
def channelMemberCursorPrefix : GoString :=
  [99, 104, 97, 110, 110, 101, 108, 77, 101, 109, 98, 101, 114]

/-- The constant `channelCursorPrefix`, the text `channel`. -/
def channelCursorPrefix : GoString := [99, 104, 97, 110, 110, 101, 108]

/-- The separator `-` of the cursor fields. -/
def dash : Byte := 45

/-- The fields of `model.ChannelMember` read by the resolvers. -/
structure ChannelMember where
  ChannelId : GoString
  UserId : GoString
  Roles : GoString
  deriving DecidableEq, Repr

/-- The wrapper struct `channelMember`. -/
abbrev channelMember := ChannelMember

/-- The method `(*channelMember).Cursor`. -/
def channelMember.Cursor (cm : channelMember) : GoString :=
  let cursor := channelMemberCursorPrefix ++ [dash] ++ cm.ChannelId ++ [dash] ++ cm.UserId
  base64.EncodeToString cursor

/-- The function `parseChannelMemberCursor`, returning
`(channelID, userID, ok)`. -/
def parseChannelMemberCursor (cursor : GoString) : GoString × GoString × Bool :=
  match base64.DecodeString cursor with
  | none => ([], [], false)
  | some decoded =>
    match strings.Split decoded dash with
    | [p0, p1, p2] =>
      if p0 ≠ channelMemberCursorPrefix then ([], [], false)
      else (p1, p2, true)
    | _ => ([], [], false)

/-! ## Run-time panics and pointers -/

/-- What a Go function did: it returned a value, or a run-time panic
(an index or a slice bound out of range, a nil dereference, a failed type
assertion) stopped it. -/
inductive Outcome (α : Type) where
  | returned (a : α)
  | panic
  deriving DecidableEq, Repr

/-- The value component of an outcome, transformed by `f`. -/
def Outcome.map {α β : Type} (f : α → β) : Outcome α → Outcome β
  | .returned a => .returned (f a)
  | .panic => .panic

/-- A pointer to a record: `none` is `nil`, `some a` is the address `a`. -/
abbrev Ptr := Option Nat

/-- The records that the non-nil pointers refer to, by address. -/
abbrev Heap (α : Type) := Nat → α

/-- The heap after the record at address `a` has been overwritten by `v`. -/
def Heap.write {α : Type} (heap : Heap α) (a : Nat) (v : α) : Heap α :=
  fun b => if b = a then v else heap b

/-! ## Ranked pagination (`model/insights.go`) -/

/-- The value a Go `int` (64 bits, two's complement) holds after an
arithmetic result `x`. -/
def wrapInt (x : Int) : Int := (x + 2 ^ 63) % 2 ^ 64 - 2 ^ 63

/-- The values of the Go type `int`. -/
def IsInt (x : Int) : Prop := -2 ^ 63 ≤ x ∧ x < 2 ^ 63

instance (x : Int) : Decidable (IsInt x) := by unfold IsInt; infer_instance

/-- The struct `TopReaction`, with the embedded `InsightsData.Rank`. -/
structure TopReaction where
  Rank : Int
  EmojiName : GoString
  Count : Int
  deriving DecidableEq, Repr

/-- The struct `TopReactionList`, with the embedded `InsightsListData.HasNext`;
`Items` is a `[]*TopReaction`. -/
structure TopReactionList where
  HasNext : Bool
  Items : List Ptr
  deriving DecidableEq, Repr

/-- The struct `TopChannel`, with the embedded `InsightsData.Rank`; the field
`Type` is named `ChannelType` here. -/
structure TopChannel where
  Rank : Int
  ID : GoString
  ChannelType : GoString
  DisplayName : GoString
  Name : GoString
  MessageCount : Int
  deriving DecidableEq, Repr

/-- The struct `TopChannelList`, with the embedded `InsightsListData.HasNext`;
`Items` is a `[]*TopChannel`. -/
structure TopChannelList where
  HasNext : Bool
  Items : List Ptr
  deriving DecidableEq, Repr

/-- The loop over `reactions` that sets `reaction.Rank = offset + i + 1`
through each pointer, from index `i` on; a nil pointer panics. -/
def rankReactions (offset : Int) : Nat → List Ptr → Heap TopReaction → Outcome (Heap TopReaction)
  | _, [], heap => .returned heap
  | _, none :: _, _ => .panic
  | i, some a :: rest, heap =>
    rankReactions offset (i + 1) rest
      (heap.write a { heap a with Rank := wrapInt (wrapInt (offset + i) + 1) })

/-- The function `GetTopReactionListWithRankAndPagination`, on the heap the
pointers of `reactions` refer to: it returns the list and the heap it
leaves.  The slice expression `reactions[:len(reactions)-1]` panics on an
empty slice. -/
def GetTopReactionListWithRankAndPagination (heap : Heap TopReaction) (reactions : List Ptr)
    (limit offset : Int) : Outcome (TopReactionList × Heap TopReaction) :=
  if limit ≠ 0 ∧ (reactions.length : Int) = wrapInt (limit + 1) then
    if reactions.length = 0 then .panic
    else
      (rankReactions offset 0 (reactions.take (reactions.length - 1)) heap).map
        (fun heap => ({ HasNext := true, Items := reactions.take (reactions.length - 1) }, heap))
  else
    (rankReactions offset 0 reactions heap).map
      (fun heap => ({ HasNext := false, Items := reactions }, heap))

/-- The loop over `channels` that sets `channel.Rank = offset + i + 1`
through each pointer, from index `i` on; a nil pointer panics. -/
def rankChannels (offset : Int) : Nat → List Ptr → Heap TopChannel → Outcome (Heap TopChannel)
  | _, [], heap => .returned heap
  | _, none :: _, _ => .panic
  | i, some a :: rest, heap =>
    rankChannels offset (i + 1) rest
      (heap.write a { heap a with Rank := wrapInt (wrapInt (offset + i) + 1) })

/-- The function `GetTopChannelListWithRankAndPagination`, on the heap the
pointers of `channels` refer to: it returns the list and the heap it
leaves.  The slice expression `channels[:len(channels)-1]` panics on an
empty slice. -/
def GetTopChannelListWithRankAndPagination (heap : Heap TopChannel) (channels : List Ptr)
    (limit offset : Int) : Outcome (TopChannelList × Heap TopChannel) :=
  if limit ≠ 0 ∧ (channels.length : Int) = wrapInt (limit + 1) then
    if channels.length = 0 then .panic
    else
      (rankChannels offset 0 (channels.take (channels.length - 1)) heap).map
        (fun heap => ({ HasNext := true, Items := channels.take (channels.length - 1) }, heap))
  else
    (rankChannels offset 0 channels heap).map
      (fun heap => ({ HasNext := false, Items := channels }, heap))

/-- The ranks read through the pointers of a returned reaction list; `none`
for a nil pointer. -/
def reactionRanks (r : TopReactionList × Heap TopReaction) : List (Option Int) :=
  r.1.Items.map (fun p => p.map (fun a => (r.2 a).Rank))

/-- The ranks read through the pointers of a returned channel list; `none`
for a nil pointer. -/
def channelRanks (r : TopChannelList × Heap TopChannel) : List (Option Int) :=
  r.1.Items.map (fun p => p.map (fun a => (r.2 a).Rank))

/-! ## The web context and the app layer (`web.Context`, `app.App`) -/

/-- The permissions named by the resolvers (`model.Permission...`). -/
inductive Permission
  | PermissionEditOtherUsers
  | PermissionViewTeam
  | PermissionReadOtherUsersTeams
  | PermissionViewMembers
  | PermissionReadChannel
  | PermissionReadPublicChannel
  deriving DecidableEq, Repr

/-- The fields of `model.Session` read by the resolvers. -/
structure Session where
  UserId : GoString
  deriving DecidableEq, Repr

/-- The fields of `model.Channel` read by the resolvers; the field `Type` is
named `ChannelType` here. -/
structure Channel where
  Id : GoString
  ChannelType : GoString
  TeamId : GoString
  deriving DecidableEq, Repr

/-- The fields of `model.TeamMember` read by the resolvers. -/
structure TeamMember where
  TeamId : GoString
  UserId : GoString
  deriving DecidableEq, Repr

/-- The fields of `model.Role` read by the resolvers. -/
structure Role where
  Id : GoString
  Name : GoString
  deriving DecidableEq, Repr

/-- The struct `model.ChannelSearchOpts`, as filled in by `resolver.Channels`. -/
structure ChannelSearchOpts where
  IncludeDeleted : Bool
  LastDeleteAt : Int
  LastUpdateAt : Int
  PerPage : Option Int
  deriving DecidableEq, Repr

/-- An error value of the app layer or of the store (`*model.AppError`, or
an `error` of the store). -/
structure AppError where
  Id : GoString
  deriving DecidableEq, Repr

/-- The errors a resolver returns. -/
inductive Error
  /-- The error `no web.Context found in context` of `getCtx`. -/
  | noWebContext
  /-- The error `no dataloader.Loader found in context` of `getRolesLoader`. -/
  | noLoader
  /-- The error `c.Err` after `c.SetPermissionError(p)`. -/
  | permission (p : Permission)
  /-- The error `c.Err` after `c.SetInvalidParam(name)`. -/
  | invalidParam (name : GoString)
  /-- The error `first parameter %d higher than allowed maximum of %d`. -/
  | firstTooHigh (limit max : Int)
  /-- The error `after cursor not in the correct format: %s`. -/
  | afterCursorFormat (after : GoString)
  /-- An error handed up from the app layer or the store. -/
  | upstream (e : AppError)
  /-- The error `postProcessChannels: incorrect number of channels returned %d`. -/
  | incorrectNumber (n : Nat)
  deriving DecidableEq, Repr

/-- The methods of `app.App` and of the store that the resolvers call; the
app layer is outside these files, each method is an arbitrary function. -/
structure App where
  SessionHasPermissionToUser : Session → GoString → Bool
  SessionHasPermissionToTeam : Session → GoString → Permission → Bool
  SessionHasPermissionToChannel : Session → GoString → Permission → Bool
  SessionHasPermissionTo : Session → Permission → Bool
  UserCanSeeOtherUser : GoString → GoString → Except AppError Bool
  GetChannel : GoString → Except AppError Channel
  GetChannelMember : GoString → GoString → Except AppError ChannelMember
  GetChannelsForTeamForUserWithCursor :
    GoString → GoString → ChannelSearchOpts → GoString → Except AppError (List Channel)
  GetMembersForUserWithCursor :
    GoString → GoString → GoString → Int → Int → Except AppError (List ChannelMember)
  GetTeamMember : GoString → GoString → Except AppError TeamMember
  GetTeamMembersForUser : GoString → Except AppError (List TeamMember)
  GetChannelsLeftSince : GoString → Int → Except AppError (List GoString)
  FillInChannelProps : Channel → Except AppError Channel
  FillInChannelsProps : List Channel → Except AppError (List Channel)
  GetRolesByNames : List GoString → Except AppError (List Role)

/-- The struct `web.Context`: the app and the session of the request. -/
structure Context where
  App : App
  Session : Session

/-- Declarations of other files of the repository that the resolvers use:
the constants `model.Me`, `model.ChannelTypeOpen`, `web.PerPageDefault` and
`web.PerPageMaximum`, and the functions `parseChannelCursor`,
`postProcessChannels` and `model.CleanRoleNames`.  They are parameters. -/
structure Deps where
  Me : GoString
  ChannelTypeOpen : GoString
  PerPageDefault : Int
  PerPageMaximum : Int
  parseChannelCursor : GoString → GoString × Bool
  postProcessChannels : Context → List Channel → Except AppError (List Channel)
  CleanRoleNames : List GoString → List GoString × Bool

/-- A call made to the app layer or to the store, with its arguments. -/
inductive Call
  | GetChannel (channelID : GoString)
  | GetChannelMember (channelID userID : GoString)
  | GetChannelsForTeamForUserWithCursor (teamID userID : GoString) (opts : ChannelSearchOpts)
      (afterChannel : GoString)
  | GetMembersForUserWithCursor (userID afterChannel afterUser : GoString) (limit lastUpdateAt : Int)
  | GetTeamMember (teamID userID : GoString)
  | GetTeamMembersForUser (userID : GoString)
  | GetChannelsLeftSince (userID : GoString) (since : Int)
  | UserCanSeeOtherUser (userID otherUserID : GoString)
  | FillInChannelProps
  | FillInChannelsProps
  | postProcessChannels
  deriving DecidableEq, Repr

/-- The data-fetch calls: the calls that read channels, members or teams. -/
def Call.isDataFetch : Call → Bool
  | .GetChannel _ => true
  | .GetChannelMember _ _ => true
  | .GetChannelsForTeamForUserWithCursor _ _ _ _ => true
  | .GetMembersForUserWithCursor _ _ _ _ _ => true
  | .GetTeamMember _ _ => true
  | .GetTeamMembersForUser _ => true
  | .GetChannelsLeftSince _ _ => true
  | _ => false

/-- The page limit a call hands to the store, for the two paginated calls. -/
def Call.limit? : Call → Option Int
  | .GetChannelsForTeamForUserWithCursor _ _ opts _ => opts.PerPage
  | .GetMembersForUserWithCursor _ _ _ limit _ => some limit
  | _ => none

/-- What a resolver did: the pair `(value, error)` it returned and the
calls it made, in order. -/
structure Resolved (α : Type) where
  result : Except Error α
  calls : List Call

/-- The step that opens the four resolvers: when `args.UserID == model.Me`,
`args.UserID` becomes `c.AppContext.Session().UserId`. -/
def resolveMe (d : Deps) (c : Context) (UserID : GoString) : GoString :=
  if UserID = d.Me then c.Session.UserId else UserID

/-- The `ensure args.First limit` step shared by `resolver.Channels` and
`resolver.ChannelMembers`: `limit := int(args.First)`, replaced by the
default when zero, an error when above the maximum. -/
def ensureFirst (d : Deps) (First : Int) : Except Error Int :=
  let limit := First
  if limit = 0 then .ok d.PerPageDefault
  else if limit > d.PerPageMaximum then .error (.firstTooHigh limit d.PerPageMaximum)
  else .ok limit

/-- The arguments of `resolver.Channels`; `First` is an `int32`, and the
`float64` arguments are carried as the `int` they are converted to. -/
structure ChannelsArgs where
  TeamID : GoString
  UserID : GoString
  IncludeDeleted : Bool
  LastDeleteAt : Int
  LastUpdateAt : Int
  First : Int
  After : GoString

/-- The method `(*resolver).Channels`; `c?` is the outcome of `getCtx`. -/
def resolver.Channels (d : Deps) (c? : Option Context) (args : ChannelsArgs) :
    Resolved (List Channel) :=
  match c? with
  | none => ⟨.error .noWebContext, []⟩
  | some c =>
    let UserID := resolveMe d c args.UserID
    if !c.App.SessionHasPermissionToUser c.Session UserID then
      ⟨.error (.permission .PermissionEditOtherUsers), []⟩
    else if args.TeamID ≠ [] && !c.App.SessionHasPermissionToTeam c.Session args.TeamID .PermissionViewTeam then
      ⟨.error (.permission .PermissionViewTeam), []⟩
    else
      match ensureFirst d args.First with
      | .error e => ⟨.error e, []⟩
      | .ok limit =>
        let after : Option GoString :=
          if args.After ≠ [] then
            match d.parseChannelCursor args.After with
            | (afterChannel, true) => some afterChannel
            | (_, false) => none
          else some []
        match after with
        | none => ⟨.error (.afterCursorFormat args.After), []⟩
        | some afterChannel =>
          let opts : ChannelSearchOpts :=
            { IncludeDeleted := args.IncludeDeleted, LastDeleteAt := args.LastDeleteAt,
              LastUpdateAt := args.LastUpdateAt, PerPage := some limit }
          let fetch := Call.GetChannelsForTeamForUserWithCursor args.TeamID UserID opts afterChannel
          match c.App.GetChannelsForTeamForUserWithCursor args.TeamID UserID opts afterChannel with
          | .error appErr => ⟨.error (.upstream appErr), [fetch]⟩
          | .ok channels =>
            match c.App.FillInChannelsProps channels with
            | .error appErr => ⟨.error (.upstream appErr), [fetch, .FillInChannelsProps]⟩
            | .ok channels =>
              match d.postProcessChannels c channels with
              | .error err => ⟨.error (.upstream err), [fetch, .FillInChannelsProps, .postProcessChannels]⟩
              | .ok res => ⟨.ok res, [fetch, .FillInChannelsProps, .postProcessChannels]⟩

/-- The arguments of `resolver.TeamMembers`. -/
structure TeamMembersArgs where
  UserID : GoString
  TeamID : GoString

/-- The method `(*resolver).TeamMembers`. -/
def resolver.TeamMembers (d : Deps) (c? : Option Context) (args : TeamMembersArgs) :
    Resolved (List TeamMember) :=
  match c? with
  | none => ⟨.error .noWebContext, []⟩
  | some c =>
    let UserID := resolveMe d c args.UserID
    if !c.App.SessionHasPermissionToUser c.Session UserID &&
        !c.App.SessionHasPermissionTo c.Session .PermissionReadOtherUsersTeams then
      ⟨.error (.permission .PermissionReadOtherUsersTeams), []⟩
    else
      let canSeeCall := Call.UserCanSeeOtherUser c.Session.UserId UserID
      match c.App.UserCanSeeOtherUser c.Session.UserId UserID with
      | .error appErr => ⟨.error (.upstream appErr), [canSeeCall]⟩
      | .ok canSee =>
        if !canSee then ⟨.error (.permission .PermissionViewMembers), [canSeeCall]⟩
        else if args.TeamID ≠ [] then
          if !c.App.SessionHasPermissionToTeam c.Session args.TeamID .PermissionViewTeam then
            ⟨.error (.permission .PermissionViewTeam), [canSeeCall]⟩
          else
            match c.App.GetTeamMember args.TeamID UserID with
            | .error appErr2 => ⟨.error (.upstream appErr2), [canSeeCall, .GetTeamMember args.TeamID UserID]⟩
            | .ok tm => ⟨.ok [tm], [canSeeCall, .GetTeamMember args.TeamID UserID]⟩
        else
          match c.App.GetTeamMembersForUser UserID with
          | .error appErr => ⟨.error (.upstream appErr), [canSeeCall, .GetTeamMembersForUser UserID]⟩
          | .ok members => ⟨.ok members, [canSeeCall, .GetTeamMembersForUser UserID]⟩

/-- The arguments of `resolver.ChannelsLeft`; `Since` is carried as the
`int64` it is converted to. -/
structure ChannelsLeftArgs where
  UserID : GoString
  Since : Int

/-- The method `(*resolver).ChannelsLeft`. -/
def resolver.ChannelsLeft (d : Deps) (c? : Option Context) (args : ChannelsLeftArgs) :
    Resolved (List GoString) :=
  match c? with
  | none => ⟨.error .noWebContext, []⟩
  | some c =>
    let UserID := resolveMe d c args.UserID
    if !c.App.SessionHasPermissionToUser c.Session UserID then
      ⟨.error (.permission .PermissionEditOtherUsers), []⟩
    else
      match c.App.GetChannelsLeftSince UserID args.Since with
      | .error err => ⟨.error (.upstream err), [.GetChannelsLeftSince UserID args.Since]⟩
      | .ok ids => ⟨.ok ids, [.GetChannelsLeftSince UserID args.Since]⟩

/-- The arguments of `resolver.ChannelMembers`; `First` is an `int32`, and
`LastUpdateAt` is carried as the `int` it is converted to. -/
structure ChannelMembersArgs where
  UserID : GoString
  ChannelID : GoString
  First : Int
  After : GoString
  LastUpdateAt : Int

/-- The method `(*resolver).ChannelMembers`. -/
def resolver.ChannelMembers (d : Deps) (c? : Option Context) (args : ChannelMembersArgs) :
    Resolved (List channelMember) :=
  match c? with
  | none => ⟨.error .noWebContext, []⟩
  | some c =>
    let UserID := resolveMe d c args.UserID
    if args.ChannelID ≠ [] then
      if !c.App.SessionHasPermissionToChannel c.Session args.ChannelID .PermissionReadChannel then
        ⟨.error (.permission .PermissionReadChannel), []⟩
      else
        match c.App.GetChannelMember args.ChannelID UserID with
        | .error appErr => ⟨.error (.upstream appErr), [.GetChannelMember args.ChannelID UserID]⟩
        | .ok member => ⟨.ok [member], [.GetChannelMember args.ChannelID UserID]⟩
    else if !c.App.SessionHasPermissionToUser c.Session UserID then
      ⟨.error (.permission .PermissionEditOtherUsers), []⟩
    else
      match ensureFirst d args.First with
      | .error e => ⟨.error e, []⟩
      | .ok limit =>
        let after : Option (GoString × GoString) :=
          if args.After ≠ [] then
            match parseChannelMemberCursor args.After with
            | (afterChannel, afterUser, true) => some (afterChannel, afterUser)
            | (_, _, false) => none
          else some ([], [])
        match after with
        | none => ⟨.error (.afterCursorFormat args.After), []⟩
        | some (afterChannel, afterUser) =>
          let fetch := Call.GetMembersForUserWithCursor UserID afterChannel afterUser limit args.LastUpdateAt
          match c.App.GetMembersForUserWithCursor UserID afterChannel afterUser limit args.LastUpdateAt with
          | .error err => ⟨.error (.upstream err), [fetch]⟩
          | .ok members => ⟨.ok members, [fetch]⟩

/-- The method `(*channelMember).Channel`. -/
def channelMember.Channel (d : Deps) (c? : Option Context) (cm : channelMember) :
    Resolved Channel :=
  match c? with
  | none => ⟨.error .noWebContext, []⟩
  | some c =>
    match c.App.GetChannel cm.ChannelId with
    | .error appErr => ⟨.error (.upstream appErr), [.GetChannel cm.ChannelId]⟩
    | .ok channel =>
      let denied : Option Permission :=
        if channel.ChannelType = d.ChannelTypeOpen then
          if !c.App.SessionHasPermissionToTeam c.Session channel.TeamId .PermissionReadPublicChannel &&
              !c.App.SessionHasPermissionToChannel c.Session cm.ChannelId .PermissionReadChannel then
            some .PermissionReadPublicChannel
          else none
        else
          if !c.App.SessionHasPermissionToChannel c.Session cm.ChannelId .PermissionReadChannel then
            some .PermissionReadChannel
          else none
      match denied with
      | some p => ⟨.error (.permission p), [.GetChannel cm.ChannelId]⟩
      | none =>
        match c.App.FillInChannelProps channel with
        | .error appErr =>
          ⟨.error (.upstream appErr), [.GetChannel cm.ChannelId, .FillInChannelProps]⟩
        | .ok channel =>
          let calls := [Call.GetChannel cm.ChannelId, .FillInChannelProps, .postProcessChannels]
          match d.postProcessChannels c [channel] with
          | .error err => ⟨.error (.upstream err), calls⟩
          | .ok res =>
            match res with
            | [r] => ⟨.ok r, calls⟩
            | _ => ⟨.error (.incorrectNumber res.length), calls⟩

/-! ## The role batch loader (`api4/resolver_channel_member.go`) -/

/-- The map `tmp` of `getGraphQLRoles`, a `map[string]*model.Role`; a
missing key reads as `nil`. -/
abbrev RoleMap := GoString → Option Role

/-- The loop over `roles` that sets `tmp[r.Name] = r`, on the empty map. -/
def roleMapOf (roles : List Role) : RoleMap :=
  roles.foldl (fun tmp r => fun name => if name = r.Name then some r else tmp name) (fun _ => none)

/-- The loop over `roleNames` that sets `roles[i] = tmp[roleName]`, from
index `i` on: a write past the end of `roles` panics. -/
def rewriteRoles (tmp : RoleMap) : List GoString → Nat → List (Option Role) → Outcome (List (Option Role))
  | [], _, roles => .returned roles
  | roleName :: rest, i, roles =>
    if i < roles.length then rewriteRoles tmp rest (i + 1) (roles.set i (tmp roleName))
    else .panic

/-- The function `getGraphQLRoles`; the returned slice holds `*model.Role`
pointers, `none` being `nil`. -/
def getGraphQLRoles (d : Deps) (c : Context) (roleNames : List GoString) :
    Outcome (Except Error (List (Option Role))) :=
  match d.CleanRoleNames roleNames with
  | (_, false) => .returned (.error (.invalidParam [114, 111, 108, 101, 110, 97, 109, 101]))
  | (cleanedRoleNames, true) =>
    match c.App.GetRolesByNames cleanedRoleNames with
    | .error appErr => .returned (.error (.upstream appErr))
    | .ok roles =>
      let tmp := roleMapOf roles
      match rewriteRoles tmp roleNames 0 (roles.map some) with
      | .panic => .panic
      | .returned roles => .returned (.ok roles)

/-- A value of the empty interface type, as held by a `dataloader.Result`. -/
inductive Iface
  | nil
  | role (p : Option Role)
  deriving DecidableEq, Repr

/-- The struct `dataloader.Result`. -/
structure Result where
  Data : Iface
  Error : Option Error
  deriving DecidableEq, Repr

/-- The statement that stores a `dataloader.Result` holding `err` in
`result[0]`; it panics on an empty `result`. -/
def setFirstError (result : List (Option Result)) (err : Error) : Outcome (List (Option Result)) :=
  if 0 < result.length then .returned (result.set 0 (some { Data := .nil, Error := some err }))
  else .panic

/-- The loop over `roles` that stores a `dataloader.Result` holding `role`
in `result[i]`, from index `i` on: a write past the end of `result` panics. -/
def fillResults : List (Option Role) → Nat → List (Option Result) → Outcome (List (Option Result))
  | [], _, result => .returned result
  | role :: rest, i, result =>
    if i < result.length then
      fillResults rest (i + 1) (result.set i (some { Data := .role role, Error := none }))
    else .panic

/-- The function `graphQLRolesLoader`; `keys` are the strings of
`keys.Keys()`, and an entry `none` of the result is a `nil` pointer. -/
def graphQLRolesLoader (d : Deps) (c? : Option Context) (keys : List GoString) :
    Outcome (List (Option Result)) :=
  let stringKeys := keys
  let result : List (Option Result) := List.replicate stringKeys.length none
  match c? with
  | none => setFirstError result .noWebContext
  | some c =>
    match getGraphQLRoles d c stringKeys with
    | .panic => .panic
    | .returned (.error err) => setFirstError result err
    | .returned (.ok roles) => fillResults roles 0 result

/-- The loader found in the request context: `LoadMany` followed by the
call of the thunk it returns gives the results and the errors. -/
structure Loader where
  LoadMany : List GoString → List Iface × List (Option Error)

/-- The loop over `results` that sets `roles[i] = res.(*model.Role)`: the
type assertion panics on a value that holds no `*model.Role`. -/
def assertRoles : List Iface → Outcome (List (Option Role))
  | [] => .returned []
  | .role p :: rest =>
    match assertRoles rest with
    | .returned roles => .returned (p :: roles)
    | .panic => .panic
  | .nil :: _ => .panic

/-- The method `(*channelMember).Roles_`, returning the Go pair
`(roles, error)`; `loader?` is the outcome of `getRolesLoader`, whose `err`
is `nil` once the loader is found, and `Fields` is `strings.Fields`. -/
def channelMember.Roles_ (Fields : GoString → List GoString) (loader? : Option Loader)
    (cm : channelMember) : Outcome (Option (List (Option Role)) × Option Error) :=
  match loader? with
  | none => .returned (none, some .noLoader)
  | some loader =>
    let err : Option Error := none
    let (results, errs) := loader.LoadMany (Fields cm.Roles)
    match errs with
    | some _ :: _ => .returned (none, err)
    | _ =>
      match assertRoles results with
      | .panic => .panic
      | .returned roles => .returned (some roles, none)

/-! ## Sample requests -/

/-- Sample values of the outside declarations: `Me` is `me`, the open
channel type is `O`, pages default to 60 and are capped at 200; the sample
`parseChannelCursor` rejects every text, `postProcessChannels` returns the
channels as they are, and `CleanRoleNames` accepts the names as they are
(as `model.CleanRoleNames` does on non-blank lower-case names). -/
def sampleDeps : Deps :=
  { Me := [109, 101]
    ChannelTypeOpen := [79]
    PerPageDefault := 60
    PerPageMaximum := 200
    parseChannelCursor := fun _ => ([], false)
    postProcessChannels := fun _ channels => .ok channels
    CleanRoleNames := fun roleNames => (roleNames, true) }

/-- A sample app: every permission check answers `allow`; every channel
exists, is private (type `P`) and belongs to team `t`; lists are empty; the
store holds the roles `stored` and returns, in its own order, those whose
name is asked for. -/
def sampleApp (allow : Bool) (stored : List Role) : App :=
  { SessionHasPermissionToUser := fun _ _ => allow
    SessionHasPermissionToTeam := fun _ _ _ => allow
    SessionHasPermissionToChannel := fun _ _ _ => allow
    SessionHasPermissionTo := fun _ _ => allow
    UserCanSeeOtherUser := fun _ _ => .ok allow
    GetChannel := fun channelID => .ok { Id := channelID, ChannelType := [80], TeamId := [116] }
    GetChannelMember := fun channelID userID => .ok { ChannelId := channelID, UserId := userID, Roles := [] }
    GetChannelsForTeamForUserWithCursor := fun _ _ _ _ => .ok []
    GetMembersForUserWithCursor := fun _ _ _ _ _ => .ok []
    GetTeamMember := fun teamID userID => .ok { TeamId := teamID, UserId := userID }
    GetTeamMembersForUser := fun _ => .ok []
    GetChannelsLeftSince := fun _ _ => .ok []
    FillInChannelProps := fun channel => .ok channel
    FillInChannelsProps := fun channels => .ok channels
    GetRolesByNames := fun roleNames => .ok (stored.filter (fun r => r.Name ∈ roleNames)) }

/-- A sample request context: the session of user `u` on a `sampleApp`
whose store holds no role. -/
def sampleContext (allow : Bool) : Context :=
  { App := sampleApp allow [], Session := { UserId := [117] } }

/-- A sample request context whose store holds the roles `stored`. -/
def sampleRolesContext (stored : List Role) : Context :=
  { App := sampleApp true stored, Session := { UserId := [117] } }

/-- Sample arguments of `resolver.Channels`: team `t`, user `u`. -/
def sampleChannelsArgs (First : Int) (After : GoString) : ChannelsArgs :=
  { TeamID := [116], UserID := [117], IncludeDeleted := false, LastDeleteAt := 0, LastUpdateAt := 0,
    First := First, After := After }

/-- Sample arguments of `resolver.ChannelMembers`, in list mode: user `u`. -/
def sampleChannelMembersArgs (First : Int) (After : GoString) : ChannelMembersArgs :=
  { UserID := [117], ChannelID := [], First := First, After := After, LastUpdateAt := 0 }

/-- A sample heap of reactions: address `a` holds the emoji `a` with
count `a`, not yet ranked. -/
def sampleReactions : Heap TopReaction :=
  fun a => { Rank := 0, EmojiName := [97], Count := a }

/-- A sample heap of channels: address `a` holds an open channel with `a`
messages, not yet ranked. -/
def sampleChannels : Heap TopChannel :=
  fun a => { Rank := 0, ID := [105], ChannelType := [79], DisplayName := [65], Name := [97],
             MessageCount := a }

/-- A sample loader whose thunk reports the error `e` for its single key. -/
def failingLoader : Loader :=
  { LoadMany := fun _ => ([.nil], [some (.upstream { Id := [101] })]) }

/-! ## Lemmas on `encoding/base64` and `strings` -/

namespace base64

theorem and_63 (x : Nat) : x &&& 0x3F = x % 64 := Nat.and_pow_two_sub_one_eq_mod x 6

theorem shl_or (a b k : Nat) (h : b < 2 ^ k) : a <<< k ||| b = a * 2 ^ k + b := by
  rw [Nat.shiftLeft_eq, Nat.mul_comm, ← Nat.mul_add_lt_is_or h]

theorem pack3 (b0 b1 b2 : Nat) (h1 : b1 < 256) (h2 : b2 < 256) :
    b0 <<< 16 ||| b1 <<< 8 ||| b2 = b0 * 65536 + b1 * 256 + b2 := by
  have e1 : b0 <<< 16 ||| b1 <<< 8 = (b0 * 256 + b1) <<< 8 := by
    rw [shl_or b0 (b1 <<< 8) 16 (by rw [Nat.shiftLeft_eq]; omega)]
    simp only [Nat.shiftLeft_eq]; omega
  rw [e1, shl_or _ b2 8 (by omega)]; omega

theorem pack4 (s0 s1 s2 s3 : Nat) (h1 : s1 < 64) (h2 : s2 < 64) (h3 : s3 < 64) :
    s0 <<< 18 ||| s1 <<< 12 ||| s2 <<< 6 ||| s3 = s0 * 262144 + s1 * 4096 + s2 * 64 + s3 := by
  have e1 : s0 <<< 18 ||| s1 <<< 12 = (s0 * 64 + s1) <<< 12 := by
    rw [shl_or s0 (s1 <<< 12) 18 (by rw [Nat.shiftLeft_eq]; omega)]
    simp only [Nat.shiftLeft_eq]; omega
  have e2 : (s0 * 64 + s1) <<< 12 ||| s2 <<< 6 = ((s0 * 64 + s1) * 64 + s2) <<< 6 := by
    rw [shl_or _ (s2 <<< 6) 12 (by rw [Nat.shiftLeft_eq]; omega)]
    simp only [Nat.shiftLeft_eq]; omega
  rw [e1, e2, shl_or _ s3 6 (by omega)]; omega

theorem decodeMap_encode (v : Nat) (h : v < 64) : decodeMap (encode v) = v := by
  interval_cases v <;> rfl

theorem encode_mem (v : Nat) (h : v < 64) : encode v ∈ encodeStd := by
  interval_cases v <;> decide

theorem quantum_full (b0 b1 b2 : Byte) :
    quantumBytes [(b0.val <<< 16 ||| b1.val <<< 8 ||| b2.val) >>> 18 &&& 0x3F,
      (b0.val <<< 16 ||| b1.val <<< 8 ||| b2.val) >>> 12 &&& 0x3F,
      (b0.val <<< 16 ||| b1.val <<< 8 ||| b2.val) >>> 6 &&& 0x3F,
      (b0.val <<< 16 ||| b1.val <<< 8 ||| b2.val) &&& 0x3F] = [b0, b1, b2] := by
  have h0 := b0.isLt
  have h1 := b1.isLt
  have h2 := b2.isLt
  simp only [quantumBytes, List.getD_cons_zero, List.getD_cons_succ, and_63, pack3 _ _ _ h1 h2,
    Nat.shiftRight_eq_div_pow]
  rw [pack4 _ _ _ _ (Nat.mod_lt _ (by norm_num)) (Nat.mod_lt _ (by norm_num)) (Nat.mod_lt _ (by norm_num))]
  simp only [List.length_cons, List.length_nil, List.take, Fin.ofNat]
  refine congrArg₂ _ (Fin.ext ?_) (congrArg₂ _ (Fin.ext ?_) (congrArg₂ _ (Fin.ext ?_) rfl)) <;>
    simp only [Nat.reducePow] <;> omega

theorem pack2 (b0 b1 : Nat) (h1 : b1 < 256) :
    b0 <<< 16 ||| b1 <<< 8 = b0 * 65536 + b1 * 256 := by
  have h := pack3 b0 b1 0 h1 (by norm_num)
  simpa using h

theorem quantum_two (b0 b1 : Byte) :
    quantumBytes [(b0.val <<< 16 ||| b1.val <<< 8) >>> 18 &&& 0x3F,
      (b0.val <<< 16 ||| b1.val <<< 8) >>> 12 &&& 0x3F,
      (b0.val <<< 16 ||| b1.val <<< 8) >>> 6 &&& 0x3F] = [b0, b1] := by
  have h0 := b0.isLt
  have h1 := b1.isLt
  simp only [quantumBytes, List.getD_cons_zero, List.getD_cons_succ, List.getD_nil, and_63,
    pack2 _ _ h1, Nat.shiftRight_eq_div_pow]
  rw [pack4 _ _ _ _ (Nat.mod_lt _ (by norm_num)) (Nat.mod_lt _ (by norm_num)) (by norm_num)]
  simp only [List.length_cons, List.length_nil, List.take, Fin.ofNat]
  refine congrArg₂ _ (Fin.ext ?_) (congrArg₂ _ (Fin.ext ?_) rfl) <;>
    simp only [Nat.reducePow] <;> omega

theorem quantum_one (b0 : Byte) :
    quantumBytes [(b0.val <<< 16) >>> 18 &&& 0x3F, (b0.val <<< 16) >>> 12 &&& 0x3F] = [b0] := by
  have h0 := b0.isLt
  simp only [quantumBytes, List.getD_cons_zero, List.getD_cons_succ, List.getD_nil, and_63,
    Nat.shiftLeft_eq, Nat.shiftRight_eq_div_pow]
  have e := pack4 (b0.val * 2 ^ 16 / 2 ^ 18 % 64) (b0.val * 2 ^ 16 / 2 ^ 12 % 64) 0 0
    (Nat.mod_lt _ (by norm_num)) (by norm_num) (by norm_num)
  simp only [Nat.shiftLeft_eq] at e
  rw [e]
  simp only [List.length_cons, List.length_nil, List.take, Fin.ofNat]
  refine congrArg₂ _ (Fin.ext ?_) rfl
  simp only [Nat.reducePow]; omega

theorem and_63_lt (x : Nat) : x &&& 0x3F < 64 := by
  rw [and_63]; exact Nat.mod_lt _ (by norm_num)

theorem decodeLoop_encode (v : Nat) (h : v < 64) (rest : GoString) (dbuf : List Nat)
    (dst : List Byte) :
    decodeLoop (encode v :: rest) dbuf dst =
      if dbuf.length = 3 then decodeLoop rest [] (dst ++ quantumBytes (dbuf ++ [v]))
      else decodeLoop rest (dbuf ++ [v]) dst := by
  have hv : decodeMap (encode v) = v := decodeMap_encode v h
  have hne : v ≠ 0xff := by omega
  simp only [decodeLoop, hv, hne, ne_eq, not_false_eq_true, if_true]

theorem decodeLoop_pad (rest : GoString) (dbuf : List Nat) (dst : List Byte) :
    decodeLoop (padChar :: rest) dbuf dst = (decodePadding dbuf rest).map (fun last => dst ++ last) := by
  have hv : decodeMap padChar = 0xff := by rfl
  have h10 : ¬ (padChar = 10 ∨ padChar = 13) := by decide
  simp only [decodeLoop, hv, h10, ne_eq, not_true_eq_false, if_false]

/-- Decoding what `EncodeToString` produced gives the source bytes back. -/
theorem decodeLoop_EncodeToString (bs : GoString) :
    ∀ dst : List Byte, decodeLoop (EncodeToString bs) [] dst = some (dst ++ bs) := by
  induction bs using EncodeToString.induct with
  | case1 b0 b1 b2 rest ih =>
    intro dst
    simp only [EncodeToString, decodeLoop_encode, and_63_lt, List.length_nil, List.nil_append,
      List.length_cons, List.cons_append, Nat.reduceAdd, Nat.reduceEqDiff, if_false, if_true,
      OfNat.zero_ne_ofNat, OfNat.one_ne_ofNat, quantum_full, ih, List.append_assoc]
  | case2 b0 b1 =>
    intro dst
    simp only [EncodeToString, decodeLoop_encode, and_63_lt, decodeLoop_pad, List.length_nil,
      List.nil_append, List.length_cons, List.cons_append, Nat.reduceAdd, Nat.reduceEqDiff,
      if_false, if_true, OfNat.zero_ne_ofNat, OfNat.one_ne_ofNat, decodePadding, skipNewlines,
      quantum_two, or_self, Option.map_some']
  | case3 b0 =>
    intro dst
    have hp : ¬ (padChar = 10 ∨ padChar = 13) := by decide
    simp only [EncodeToString, decodeLoop_encode, and_63_lt, decodeLoop_pad, List.length_nil,
      List.nil_append, List.length_cons, List.cons_append, Nat.reduceAdd, Nat.reduceEqDiff,
      if_false, if_true, OfNat.zero_ne_ofNat, OfNat.one_ne_ofNat, decodePadding, skipNewlines,
      quantum_one, or_self, Option.map_some', hp, ne_eq, not_true_eq_false, or_true]
  | case4 =>
    intro dst
    simp [EncodeToString, decodeLoop]

theorem DecodeString_EncodeToString (bs : GoString) :
    DecodeString (EncodeToString bs) = some bs := by
  simpa [DecodeString] using decodeLoop_EncodeToString bs []

end base64

namespace strings

theorem Split_ne_nil (s : GoString) (sep : Byte) : Split s sep ≠ [] := by
  cases s with
  | nil => simp [Split]
  | cons c rest =>
    simp only [Split]
    split
    · simp
    · split <;> simp

theorem Split_not_mem (s : GoString) (sep : Byte) (h : sep ∉ s) : Split s sep = [s] := by
  induction s with
  | nil => rfl
  | cons c rest ih =>
    have hc : c ≠ sep := fun e => h (by simp [e])
    have hr : sep ∉ rest := fun e => h (by simp [e])
    simp [Split, hc, ih hr]

theorem Split_append (p rest : GoString) (sep : Byte) (h : sep ∉ p) :
    Split (p ++ sep :: rest) sep = p :: Split rest sep := by
  induction p with
  | nil => simp [Split]
  | cons c p ih =>
    have hc : c ≠ sep := fun e => h (by simp [e])
    have hr : sep ∉ p := fun e => h (by simp [e])
    simp [Split, hc, ih hr]

end strings

/-- C1, as amended: for every channel member whose channel id and user id
contain no `-`, `parseChannelMemberCursor` applied to the text returned by
`Cursor` gives back the channel id and the user id with `ok = true`. -/
theorem cursor_round_trip (cm : channelMember) (hc : dash ∉ cm.ChannelId) (hu : dash ∉ cm.UserId) :
    parseChannelMemberCursor cm.Cursor = (cm.ChannelId, cm.UserId, true) := by
  have hp : dash ∉ channelMemberCursorPrefix := by decide
  simp only [parseChannelMemberCursor, channelMember.Cursor, base64.DecodeString_EncodeToString,
    List.append_assoc, List.singleton_append, List.cons_append, List.nil_append]
  rw [strings.Split_append _ _ _ hp, strings.Split_append _ _ _ hc, strings.Split_not_mem _ _ hu]
  simp

theorem cursor_round_trip_witness :
    parseChannelMemberCursor (channelMember.Cursor ⟨[97, 98], [120], []⟩) = ([97, 98], [120], true) :=
  cursor_round_trip ⟨[97, 98], [120], []⟩ (by decide) (by decide)

/-- C1 as stated fails: the member with channel id `a-b` and user id `x`
yields a cursor that `parseChannelMemberCursor` rejects. -/
theorem cursor_round_trip_fails_on_dash :
    parseChannelMemberCursor (channelMember.Cursor ⟨[97, 45, 98], [120], []⟩) = ([], [], false) ∧
    parseChannelMemberCursor (channelMember.Cursor ⟨[97, 45, 98], [120], []⟩) ≠ ([97, 45, 98], [120], true) := by
  decide

/-- C2: `parseChannelMemberCursor` is a total function that returns
`ok = true` exactly when the input base64-decodes to a text that splits on
`-` into three parts of which the first is `channelMember`; on such an input
it returns the other two parts with `ok = true`, and on every other input it
returns `("", "", false)`. -/
theorem parseChannelMemberCursor_accepts_iff (cursor : GoString) :
    ((parseChannelMemberCursor cursor).2.2 = true ↔
      ∃ decoded p1 p2, base64.DecodeString cursor = some decoded ∧
        strings.Split decoded dash = [channelMemberCursorPrefix, p1, p2]) ∧
    (∀ decoded p1 p2, base64.DecodeString cursor = some decoded →
      strings.Split decoded dash = [channelMemberCursorPrefix, p1, p2] →
      parseChannelMemberCursor cursor = (p1, p2, true)) ∧
    ((parseChannelMemberCursor cursor).2.2 ≠ true →
      parseChannelMemberCursor cursor = ([], [], false)) := by
  unfold parseChannelMemberCursor
  cases hd : base64.DecodeString cursor with
  | none => simp
  | some decoded =>
    rcases hs : strings.Split decoded dash with _ | ⟨p0, _ | ⟨p1, _ | ⟨p2, _ | ⟨p3, ps⟩⟩⟩⟩
    · simp [hs]
      intro d' q1 q2 e; subst e; simp [hs]
    · simp [hs]
      intro d' q1 q2 e; subst e; simp [hs]
    · simp [hs]
      intro d' q1 q2 e; subst e; simp [hs]
    · by_cases hp : p0 = channelMemberCursorPrefix
      · simp [hs, hp]
        intro d' q1 q2 e h; subst e
        rw [hs] at h
        simp at h
        exact ⟨h.2.1, h.2.2⟩
      · simp [hs, hp]
        intro d' q1 q2 e; subst e; simp [hs]
        intro h; exact absurd h hp
    · simp [hs]
      intro d' q1 q2 e; subst e; simp [hs]

theorem parseChannelMemberCursor_accepts_iff_witness :
    parseChannelMemberCursor (channelMember.Cursor ⟨[99], [117], []⟩) = ([99], [117], true) ∧
    parseChannelMemberCursor
        (base64.EncodeToString (channelCursorPrefix ++ [dash] ++ [99] ++ [dash] ++ [117])) =
      ([], [], false) ∧
    parseChannelMemberCursor [33] = ([], [], false) :=
  ⟨(parseChannelMemberCursor_accepts_iff (channelMember.Cursor ⟨[99], [117], []⟩)).2.1
      (channelMemberCursorPrefix ++ [dash] ++ [99] ++ [dash] ++ [117]) [99] [117]
      (by decide) (by decide),
   (parseChannelMemberCursor_accepts_iff
      (base64.EncodeToString (channelCursorPrefix ++ [dash] ++ [99] ++ [dash] ++ [117]))).2.2
      (by decide),
   (parseChannelMemberCursor_accepts_iff [33]).2.2 (by decide)⟩

/-- C10, as amended: every character of the text returned by `Cursor`
belongs to the standard base64 alphabet (`A-Z`, `a-z`, `0-9`, `+`, `/`) or
is the padding character `=`. -/
theorem cursor_std_alphabet (cm : channelMember) :
    ∀ ch ∈ cm.Cursor, ch ∈ base64.encodeStd ∨ ch = base64.padChar := by
  have key : ∀ bs : GoString, ∀ ch ∈ base64.EncodeToString bs,
      ch ∈ base64.encodeStd ∨ ch = base64.padChar := by
    intro bs
    induction bs using base64.EncodeToString.induct with
    | case1 b0 b1 b2 rest ih =>
      intro ch hch
      simp only [base64.EncodeToString, List.mem_cons] at hch
      rcases hch with h | h | h | h | h
      · exact Or.inl (h ▸ base64.encode_mem _ (base64.and_63_lt _))
      · exact Or.inl (h ▸ base64.encode_mem _ (base64.and_63_lt _))
      · exact Or.inl (h ▸ base64.encode_mem _ (base64.and_63_lt _))
      · exact Or.inl (h ▸ base64.encode_mem _ (base64.and_63_lt _))
      · exact ih ch h
    | case2 b0 b1 =>
      intro ch hch
      simp only [base64.EncodeToString, List.mem_cons, List.not_mem_nil, or_false] at hch
      rcases hch with h | h | h | h
      · exact Or.inl (h ▸ base64.encode_mem _ (base64.and_63_lt _))
      · exact Or.inl (h ▸ base64.encode_mem _ (base64.and_63_lt _))
      · exact Or.inl (h ▸ base64.encode_mem _ (base64.and_63_lt _))
      · exact Or.inr h
    | case3 b0 =>
      intro ch hch
      simp only [base64.EncodeToString, List.mem_cons, List.not_mem_nil, or_false] at hch
      rcases hch with h | h | h | h
      · exact Or.inl (h ▸ base64.encode_mem _ (base64.and_63_lt _))
      · exact Or.inl (h ▸ base64.encode_mem _ (base64.and_63_lt _))
      · exact Or.inr h
      · exact Or.inr h
    | case4 =>
      intro ch hch
      simp [base64.EncodeToString] at hch
  exact key _

theorem cursor_std_alphabet_witness :
    (89 : Byte) ∈ channelMember.Cursor ⟨[97], [98], []⟩ ∧
      ((89 : Byte) ∈ base64.encodeStd ∨ (89 : Byte) = base64.padChar) :=
  ⟨by decide, cursor_std_alphabet ⟨[97], [98], []⟩ 89 (by decide)⟩

/-- C10 as stated fails: the cursor of the member with channel id `a` and
user id `b` is `Y2hhbm5lbE1lbWJlci1hLWI=`, which ends in `=`. -/
theorem cursor_contains_padding :
    channelMember.Cursor ⟨[97], [98], []⟩ =
      [89, 50, 104, 104, 98, 109, 53, 108, 98, 69, 49, 108, 98, 87, 74, 108, 99, 105, 49, 104, 76, 87, 73, 61] ∧
    (61 : Byte) ∈ channelMember.Cursor ⟨[97], [98], []⟩ := by
  decide

/-! ## Theorems on ranked pagination -/

theorem wrapInt_of_IsInt (x : Int) (h : IsInt x) : wrapInt x = x := by
  unfold IsInt at h
  unfold wrapInt
  omega

theorem rankReactions_returns (offset : Int) (ptrs : List Ptr) :
    ∀ (i : Nat) (heap : Heap TopReaction), (∀ p ∈ ptrs, p ≠ none) →
      ∃ heap', rankReactions offset i ptrs heap = .returned heap' := by
  induction ptrs with
  | nil => intro i heap _; exact ⟨heap, rfl⟩
  | cons p rest ih =>
    intro i heap h
    cases p with
    | none => exact absurd rfl (h none (by simp))
    | some a =>
      simp only [rankReactions]
      exact ih _ _ (fun q hq => h q (by simp [hq]))

theorem rankChannels_returns (offset : Int) (ptrs : List Ptr) :
    ∀ (i : Nat) (heap : Heap TopChannel), (∀ p ∈ ptrs, p ≠ none) →
      ∃ heap', rankChannels offset i ptrs heap = .returned heap' := by
  induction ptrs with
  | nil => intro i heap _; exact ⟨heap, rfl⟩
  | cons p rest ih =>
    intro i heap h
    cases p with
    | none => exact absurd rfl (h none (by simp))
    | some a =>
      simp only [rankChannels]
      exact ih _ _ (fun q hq => h q (by simp [hq]))

theorem rankReactions_distinct (offset : Int) (ptrs : List Ptr) :
    ∀ (i : Nat) (heap : Heap TopReaction), (∀ p ∈ ptrs, p ≠ none) → ptrs.Nodup →
      ∃ heap', rankReactions offset i ptrs heap = .returned heap' ∧
        (∀ (k a : Nat), ptrs[k]? = some (some a) →
          heap' a = { heap a with Rank := wrapInt (wrapInt (offset + ((i + k : Nat) : Int)) + 1) }) ∧
        (∀ b : Nat, some b ∉ ptrs → heap' b = heap b) := by
  induction ptrs with
  | nil =>
    intro i heap _ _
    exact ⟨heap, rfl, by simp, fun _ _ => rfl⟩
  | cons p rest ih =>
    intro i heap hnn hnd
    cases p with
    | none => exact absurd rfl (hnn none (by simp))
    | some a =>
      have hnd' := List.nodup_cons.mp hnd
      obtain ⟨heap', hret, hk, hb⟩ :=
        ih (i + 1) (heap.write a { heap a with Rank := wrapInt (wrapInt (offset + i) + 1) })
          (fun q hq => hnn q (by simp [hq])) hnd'.2
      refine ⟨heap', by simp only [rankReactions, hret], ?_, ?_⟩
      · intro k a' hka
        cases k with
        | zero =>
          simp only [List.getElem?_cons_zero, Option.some.injEq] at hka
          subst hka
          rw [hb a hnd'.1]
          simp [Heap.write]
        | succ k =>
          simp only [List.getElem?_cons_succ] at hka
          have hne : a' ≠ a := by
            intro e
            subst e
            exact hnd'.1 (List.getElem?_mem hka)
          rw [hk k a' hka]
          have e : i + 1 + k = i + (k + 1) := by omega
          simp [Heap.write, hne, e]
      · intro b hbn
        have h1 : b ≠ a := fun e => hbn (by simp [e])
        have h2 : some b ∉ rest := fun e => hbn (by simp [e])
        rw [hb b h2]
        simp [Heap.write, h1]

theorem rankChannels_distinct (offset : Int) (ptrs : List Ptr) :
    ∀ (i : Nat) (heap : Heap TopChannel), (∀ p ∈ ptrs, p ≠ none) → ptrs.Nodup →
      ∃ heap', rankChannels offset i ptrs heap = .returned heap' ∧
        (∀ (k a : Nat), ptrs[k]? = some (some a) →
          heap' a = { heap a with Rank := wrapInt (wrapInt (offset + ((i + k : Nat) : Int)) + 1) }) ∧
        (∀ b : Nat, some b ∉ ptrs → heap' b = heap b) := by
  induction ptrs with
  | nil =>
    intro i heap _ _
    exact ⟨heap, rfl, by simp, fun _ _ => rfl⟩
  | cons p rest ih =>
    intro i heap hnn hnd
    cases p with
    | none => exact absurd rfl (hnn none (by simp))
    | some a =>
      have hnd' := List.nodup_cons.mp hnd
      obtain ⟨heap', hret, hk, hb⟩ :=
        ih (i + 1) (heap.write a { heap a with Rank := wrapInt (wrapInt (offset + i) + 1) })
          (fun q hq => hnn q (by simp [hq])) hnd'.2
      refine ⟨heap', by simp only [rankChannels, hret], ?_, ?_⟩
      · intro k a' hka
        cases k with
        | zero =>
          simp only [List.getElem?_cons_zero, Option.some.injEq] at hka
          subst hka
          rw [hb a hnd'.1]
          simp [Heap.write]
        | succ k =>
          simp only [List.getElem?_cons_succ] at hka
          have hne : a' ≠ a := by
            intro e
            subst e
            exact hnd'.1 (List.getElem?_mem hka)
          rw [hk k a' hka]
          have e : i + 1 + k = i + (k + 1) := by omega
          simp [Heap.write, hne, e]
      · intro b hbn
        have h1 : b ≠ a := fun e => hbn (by simp [e])
        have h2 : some b ∉ rest := fun e => hbn (by simp [e])
        rw [hb b h2]
        simp [Heap.write, h1]

/-- C3, as amended: for every limit `l ≥ 1` and every offset, on an input
of at most `l + 1` candidates (what the caller's over-fetch by one yields),
both functions return when no candidate is nil, and whatever they return
holds at most `l` items and has `HasNext` set exactly when the input holds
more than `l` candidates. -/
theorem page_bound_and_has_next (limit offset : Int) (reactions channels : List Ptr)
    (rheap : Heap TopReaction) (cheap : Heap TopChannel) (hl : 1 ≤ limit) (hint : IsInt limit)
    (hr : (reactions.length : Int) ≤ limit + 1) (hrs : (reactions.length : Int) < 2 ^ 63)
    (hc : (channels.length : Int) ≤ limit + 1) (hcs : (channels.length : Int) < 2 ^ 63) :
    (((∀ p ∈ reactions, p ≠ none) →
        ∃ r, GetTopReactionListWithRankAndPagination rheap reactions limit offset = .returned r) ∧
      (∀ r, GetTopReactionListWithRankAndPagination rheap reactions limit offset = .returned r →
        (r.1.Items.length : Int) ≤ limit ∧ (r.1.HasNext = true ↔ limit < reactions.length))) ∧
    (((∀ p ∈ channels, p ≠ none) →
        ∃ r, GetTopChannelListWithRankAndPagination cheap channels limit offset = .returned r) ∧
      (∀ r, GetTopChannelListWithRankAndPagination cheap channels limit offset = .returned r →
        (r.1.Items.length : Int) ≤ limit ∧ (r.1.HasNext = true ↔ limit < channels.length))) := by
  unfold IsInt at hint
  have hw : wrapInt (limit + 1) = limit + 1 ∨ (wrapInt (limit + 1) < 0 ∧ limit = 2 ^ 63 - 1) := by
    unfold wrapInt; omega
  refine ⟨⟨?_, ?_⟩, ⟨?_, ?_⟩⟩
  · intro hnn
    unfold GetTopReactionListWithRankAndPagination
    split
    · rename_i h
      have h0 : reactions.length ≠ 0 := by omega
      obtain ⟨heap', hret⟩ := rankReactions_returns offset (reactions.take (reactions.length - 1)) 0
        rheap (fun p hp => hnn p (List.mem_of_mem_take hp))
      simp [h0, hret, Outcome.map]
    · obtain ⟨heap', hret⟩ := rankReactions_returns offset reactions 0 rheap hnn
      simp [hret, Outcome.map]
  · intro r
    unfold GetTopReactionListWithRankAndPagination
    split
    · rename_i h
      have h0 : reactions.length ≠ 0 := by omega
      simp only [h0, if_false]
      cases rankReactions offset 0 (reactions.take (reactions.length - 1)) rheap with
      | panic => simp [Outcome.map]
      | returned heap' =>
        simp only [Outcome.map, Outcome.returned.injEq]
        intro e
        subst e
        simp only [List.length_take, true_iff]
        omega
    · rename_i h
      have hne : ¬ ((reactions.length : Int) = wrapInt (limit + 1)) := fun e => h ⟨by omega, e⟩
      cases rankReactions offset 0 reactions rheap with
      | panic => simp [Outcome.map]
      | returned heap' =>
        simp only [Outcome.map, Outcome.returned.injEq]
        intro e
        subst e
        simp only [Bool.false_eq_true, false_iff]
        omega
  · intro hnn
    unfold GetTopChannelListWithRankAndPagination
    split
    · rename_i h
      have h0 : channels.length ≠ 0 := by omega
      obtain ⟨heap', hret⟩ := rankChannels_returns offset (channels.take (channels.length - 1)) 0
        cheap (fun p hp => hnn p (List.mem_of_mem_take hp))
      simp [h0, hret, Outcome.map]
    · obtain ⟨heap', hret⟩ := rankChannels_returns offset channels 0 cheap hnn
      simp [hret, Outcome.map]
  · intro r
    unfold GetTopChannelListWithRankAndPagination
    split
    · rename_i h
      have h0 : channels.length ≠ 0 := by omega
      simp only [h0, if_false]
      cases rankChannels offset 0 (channels.take (channels.length - 1)) cheap with
      | panic => simp [Outcome.map]
      | returned heap' =>
        simp only [Outcome.map, Outcome.returned.injEq]
        intro e
        subst e
        simp only [List.length_take, true_iff]
        omega
    · rename_i h
      have hne : ¬ ((channels.length : Int) = wrapInt (limit + 1)) := fun e => h ⟨by omega, e⟩
      cases rankChannels offset 0 channels cheap with
      | panic => simp [Outcome.map]
      | returned heap' =>
        simp only [Outcome.map, Outcome.returned.injEq]
        intro e
        subst e
        simp only [Bool.false_eq_true, false_iff]
        omega

theorem page_bound_and_has_next_witness :
    (((∀ p ∈ ([some 0, some 1, some 2] : List Ptr), p ≠ none) →
        ∃ r, GetTopReactionListWithRankAndPagination sampleReactions [some 0, some 1, some 2] 2 0 =
          .returned r) ∧
      (∀ r, GetTopReactionListWithRankAndPagination sampleReactions [some 0, some 1, some 2] 2 0 =
          .returned r →
        (r.1.Items.length : Int) ≤ 2 ∧
          (r.1.HasNext = true ↔ (2 : Int) < ([some 0, some 1, some 2] : List Ptr).length))) ∧
    (((∀ p ∈ ([some 0] : List Ptr), p ≠ none) →
        ∃ r, GetTopChannelListWithRankAndPagination sampleChannels [some 0] 2 0 = .returned r) ∧
      (∀ r, GetTopChannelListWithRankAndPagination sampleChannels [some 0] 2 0 = .returned r →
        (r.1.Items.length : Int) ≤ 2 ∧
          (r.1.HasNext = true ↔ (2 : Int) < ([some 0] : List Ptr).length))) :=
  page_bound_and_has_next 2 0 [some 0, some 1, some 2] [some 0] sampleReactions sampleChannels
    (by decide) (by decide) (by decide) (by decide) (by decide) (by decide)

/-- C3 as stated fails: with limit 1 and three candidates both functions
return all three items and leave `HasNext` false; and on a nil candidate
they panic and return no list. -/
theorem page_bound_fails_on_long_input :
    (GetTopReactionListWithRankAndPagination sampleReactions [some 0, some 1, some 2] 1 0).map
        (fun r => (r.1.Items.length, r.1.HasNext)) = .returned (3, false) ∧
    (GetTopChannelListWithRankAndPagination sampleChannels [some 0, some 1, some 2] 1 0).map
        (fun r => (r.1.Items.length, r.1.HasNext)) = .returned (3, false) ∧
    (GetTopReactionListWithRankAndPagination sampleReactions [none, some 1] 1 0).map
        (fun r => (r.1.Items.length, r.1.HasNext)) = .panic ∧
    (GetTopChannelListWithRankAndPagination sampleChannels [none, some 1] 1 0).map
        (fun r => (r.1.Items.length, r.1.HasNext)) = .panic := by
  decide

/-- C4, as amended: for every offset `o`, every limit `l` and every input
of `m ≤ l` non-nil, pairwise distinct candidates with `o + m` within the
range of `int`, both functions return the `m` input items in their input
order, the item at index `i` carrying `Rank = o + i + 1` and its other
fields unchanged. -/
theorem rank_continuity (limit offset : Int) (reactions channels : List Ptr)
    (rheap : Heap TopReaction) (cheap : Heap TopChannel) (hint : IsInt limit) (hoff : IsInt offset)
    (hr : (reactions.length : Int) ≤ limit) (hro : offset + reactions.length < 2 ^ 63)
    (hrn : ∀ p ∈ reactions, p ≠ none) (hrd : reactions.Nodup)
    (hc : (channels.length : Int) ≤ limit) (hco : offset + channels.length < 2 ^ 63)
    (hcn : ∀ p ∈ channels, p ≠ none) (hcd : channels.Nodup) :
    (∃ heap', GetTopReactionListWithRankAndPagination rheap reactions limit offset =
          .returned ({ HasNext := false, Items := reactions }, heap') ∧
        ∀ (i : Nat) (hi : i < reactions.length),
          ∃ a, reactions[i] = some a ∧ heap' a = { rheap a with Rank := offset + i + 1 }) ∧
    (∃ heap', GetTopChannelListWithRankAndPagination cheap channels limit offset =
          .returned ({ HasNext := false, Items := channels }, heap') ∧
        ∀ (i : Nat) (hi : i < channels.length),
          ∃ a, channels[i] = some a ∧ heap' a = { cheap a with Rank := offset + i + 1 }) := by
  unfold IsInt at hint hoff
  have hw : wrapInt (limit + 1) = limit + 1 ∨ (wrapInt (limit + 1) < 0 ∧ limit = 2 ^ 63 - 1) := by
    unfold wrapInt; omega
  have hrank : ∀ (m i : Nat), offset + m < 2 ^ 63 → i < m →
      wrapInt (wrapInt (offset + ((0 + i : Nat) : Int)) + 1) = offset + i + 1 := by
    intro m i hm hi
    have h1 : wrapInt (offset + ((0 + i : Nat) : Int)) = offset + i := by
      rw [Nat.zero_add]
      apply wrapInt_of_IsInt; unfold IsInt; omega
    rw [h1]
    apply wrapInt_of_IsInt; unfold IsInt; omega
  constructor
  · have hn : ¬ (limit ≠ 0 ∧ (reactions.length : Int) = wrapInt (limit + 1)) := by
      rintro ⟨_, e⟩; omega
    obtain ⟨heap', hret, hk, _⟩ := rankReactions_distinct offset reactions 0 rheap hrn hrd
    refine ⟨heap', by simp [GetTopReactionListWithRankAndPagination, hn, hret, Outcome.map], ?_⟩
    intro i hi
    cases hp : reactions[i] with
    | none => exact absurd hp (hrn _ (List.getElem_mem hi))
    | some a =>
      refine ⟨a, rfl, ?_⟩
      have hget : reactions[i]? = some (some a) := by
        rw [List.getElem?_eq_getElem hi, hp]
      rw [hk i a hget, hrank _ i hro hi]
  · have hn : ¬ (limit ≠ 0 ∧ (channels.length : Int) = wrapInt (limit + 1)) := by
      rintro ⟨_, e⟩; omega
    obtain ⟨heap', hret, hk, _⟩ := rankChannels_distinct offset channels 0 cheap hcn hcd
    refine ⟨heap', by simp [GetTopChannelListWithRankAndPagination, hn, hret, Outcome.map], ?_⟩
    intro i hi
    cases hp : channels[i] with
    | none => exact absurd hp (hcn _ (List.getElem_mem hi))
    | some a =>
      refine ⟨a, rfl, ?_⟩
      have hget : channels[i]? = some (some a) := by
        rw [List.getElem?_eq_getElem hi, hp]
      rw [hk i a hget, hrank _ i hco hi]

theorem rank_continuity_witness :
    (∃ heap', GetTopReactionListWithRankAndPagination sampleReactions [some 1, some 0] 2 10 =
          .returned ({ HasNext := false, Items := [some 1, some 0] }, heap') ∧
        ∀ (i : Nat) (hi : i < ([some 1, some 0] : List Ptr).length),
          ∃ a, ([some 1, some 0] : List Ptr)[i] = some a ∧
            heap' a = { sampleReactions a with Rank := 10 + i + 1 }) ∧
    (∃ heap', GetTopChannelListWithRankAndPagination sampleChannels [some 0] 2 10 =
          .returned ({ HasNext := false, Items := [some 0] }, heap') ∧
        ∀ (i : Nat) (hi : i < ([some 0] : List Ptr).length),
          ∃ a, ([some 0] : List Ptr)[i] = some a ∧
            heap' a = { sampleChannels a with Rank := 10 + i + 1 }) :=
  rank_continuity 2 10 [some 1, some 0] [some 0] sampleReactions sampleChannels
    (by decide) (by decide) (by decide) (by decide) (by decide) (by decide)
    (by decide) (by decide) (by decide) (by decide)

/-- C4 as stated fails: when the same candidate stands at both positions of
the input, with limit 2 and offset 0, both items carry the last rank written,
2, not the ranks 1 and 2; a nil candidate makes the functions panic; and at
offset `2^63 - 1`, the largest `int`, the single candidate of a page of limit
1 gets `Rank = -2^63`, not `o + 0 + 1 = 2^63`. -/
theorem rank_continuity_fails :
    (GetTopReactionListWithRankAndPagination sampleReactions [some 0, some 0] 2 0).map reactionRanks =
      .returned [some 2, some 2] ∧
    (GetTopChannelListWithRankAndPagination sampleChannels [some 0, some 0] 2 0).map channelRanks =
      .returned [some 2, some 2] ∧
    (GetTopReactionListWithRankAndPagination sampleReactions [none] 1 0).map reactionRanks = .panic ∧
    (GetTopChannelListWithRankAndPagination sampleChannels [none] 1 0).map channelRanks = .panic ∧
    (GetTopReactionListWithRankAndPagination sampleReactions [some 0] 1 9223372036854775807).map
        reactionRanks = .returned [some (-9223372036854775808)] ∧
    (GetTopChannelListWithRankAndPagination sampleChannels [some 0] 1 9223372036854775807).map
        channelRanks = .returned [some (-9223372036854775808)] ∧
    (-9223372036854775808 : Int) ≠ 9223372036854775807 + 0 + 1 := by
  decide

/-! ## Theorems on the resolvers -/

/-- C5, as amended: in `resolver.Channels`, `resolver.ChannelsLeft` and
`resolver.ChannelMembers` a denial by the authorization check returns the
permission error with no call made, and in `resolver.TeamMembers` with no
data-fetch call made (only `UserCanSeeOtherUser`, itself part of the check,
may have run); `channelMember.Channel` returns the permission error after
exactly one call, the `GetChannel` lookup of the member's channel that tells
it which permission to check.  Conversely a permission error is returned
only with these calls made. -/
theorem authorization_first (d : Deps) (c : Context) (p : Permission)
    (channelsArgs : ChannelsArgs) (teamMembersArgs : TeamMembersArgs)
    (channelsLeftArgs : ChannelsLeftArgs) (channelMembersArgs : ChannelMembersArgs)
    (cm : channelMember) (channel : Channel) :
    -- resolver.Channels
    ((c.App.SessionHasPermissionToUser c.Session (resolveMe d c channelsArgs.UserID) = false →
        resolver.Channels d (some c) channelsArgs =
          ⟨.error (.permission .PermissionEditOtherUsers), []⟩) ∧
      (c.App.SessionHasPermissionToUser c.Session (resolveMe d c channelsArgs.UserID) = true →
        channelsArgs.TeamID ≠ [] →
        c.App.SessionHasPermissionToTeam c.Session channelsArgs.TeamID .PermissionViewTeam = false →
        resolver.Channels d (some c) channelsArgs = ⟨.error (.permission .PermissionViewTeam), []⟩) ∧
      ((resolver.Channels d (some c) channelsArgs).result = .error (.permission p) →
        (resolver.Channels d (some c) channelsArgs).calls = [])) ∧
    -- resolver.TeamMembers
    ((c.App.SessionHasPermissionToUser c.Session (resolveMe d c teamMembersArgs.UserID) = false →
        c.App.SessionHasPermissionTo c.Session .PermissionReadOtherUsersTeams = false →
        resolver.TeamMembers d (some c) teamMembersArgs =
          ⟨.error (.permission .PermissionReadOtherUsersTeams), []⟩) ∧
      ((c.App.SessionHasPermissionToUser c.Session (resolveMe d c teamMembersArgs.UserID) = true ∨
          c.App.SessionHasPermissionTo c.Session .PermissionReadOtherUsersTeams = true) →
        c.App.UserCanSeeOtherUser c.Session.UserId (resolveMe d c teamMembersArgs.UserID) = .ok false →
        resolver.TeamMembers d (some c) teamMembersArgs =
          ⟨.error (.permission .PermissionViewMembers),
            [.UserCanSeeOtherUser c.Session.UserId (resolveMe d c teamMembersArgs.UserID)]⟩) ∧
      ((c.App.SessionHasPermissionToUser c.Session (resolveMe d c teamMembersArgs.UserID) = true ∨
          c.App.SessionHasPermissionTo c.Session .PermissionReadOtherUsersTeams = true) →
        c.App.UserCanSeeOtherUser c.Session.UserId (resolveMe d c teamMembersArgs.UserID) = .ok true →
        teamMembersArgs.TeamID ≠ [] →
        c.App.SessionHasPermissionToTeam c.Session teamMembersArgs.TeamID .PermissionViewTeam = false →
        resolver.TeamMembers d (some c) teamMembersArgs =
          ⟨.error (.permission .PermissionViewTeam),
            [.UserCanSeeOtherUser c.Session.UserId (resolveMe d c teamMembersArgs.UserID)]⟩) ∧
      ((resolver.TeamMembers d (some c) teamMembersArgs).result = .error (.permission p) →
        ∀ call ∈ (resolver.TeamMembers d (some c) teamMembersArgs).calls, call.isDataFetch = false)) ∧
    -- resolver.ChannelsLeft
    ((c.App.SessionHasPermissionToUser c.Session (resolveMe d c channelsLeftArgs.UserID) = false →
        resolver.ChannelsLeft d (some c) channelsLeftArgs =
          ⟨.error (.permission .PermissionEditOtherUsers), []⟩) ∧
      ((resolver.ChannelsLeft d (some c) channelsLeftArgs).result = .error (.permission p) →
        (resolver.ChannelsLeft d (some c) channelsLeftArgs).calls = [])) ∧
    -- resolver.ChannelMembers
    ((channelMembersArgs.ChannelID ≠ [] →
        c.App.SessionHasPermissionToChannel c.Session channelMembersArgs.ChannelID
          .PermissionReadChannel = false →
        resolver.ChannelMembers d (some c) channelMembersArgs =
          ⟨.error (.permission .PermissionReadChannel), []⟩) ∧
      (channelMembersArgs.ChannelID = [] →
        c.App.SessionHasPermissionToUser c.Session (resolveMe d c channelMembersArgs.UserID) = false →
        resolver.ChannelMembers d (some c) channelMembersArgs =
          ⟨.error (.permission .PermissionEditOtherUsers), []⟩) ∧
      ((resolver.ChannelMembers d (some c) channelMembersArgs).result = .error (.permission p) →
        (resolver.ChannelMembers d (some c) channelMembersArgs).calls = [])) ∧
    -- channelMember.Channel
    ((c.App.GetChannel cm.ChannelId = .ok channel → channel.ChannelType = d.ChannelTypeOpen →
        c.App.SessionHasPermissionToTeam c.Session channel.TeamId .PermissionReadPublicChannel = false →
        c.App.SessionHasPermissionToChannel c.Session cm.ChannelId .PermissionReadChannel = false →
        channelMember.Channel d (some c) cm =
          ⟨.error (.permission .PermissionReadPublicChannel), [.GetChannel cm.ChannelId]⟩) ∧
      (c.App.GetChannel cm.ChannelId = .ok channel → channel.ChannelType ≠ d.ChannelTypeOpen →
        c.App.SessionHasPermissionToChannel c.Session cm.ChannelId .PermissionReadChannel = false →
        channelMember.Channel d (some c) cm =
          ⟨.error (.permission .PermissionReadChannel), [.GetChannel cm.ChannelId]⟩) ∧
      ((channelMember.Channel d (some c) cm).result = .error (.permission p) →
        (channelMember.Channel d (some c) cm).calls = [.GetChannel cm.ChannelId])) := by
  refine ⟨⟨?_, ?_, ?_⟩, ⟨?_, ?_, ?_, ?_⟩, ⟨?_, ?_⟩, ⟨?_, ?_, ?_⟩, ⟨?_, ?_, ?_⟩⟩
  · intro h; simp [resolver.Channels, h]
  · intro h1 h2 h3; simp [resolver.Channels, h1, h2, h3]
  · unfold resolver.Channels ensureFirst
    dsimp only
    split_ifs <;> (repeat' split) <;> simp_all
  · intro h1 h2; simp [resolver.TeamMembers, h1, h2]
  · intro h1 h2
    rcases h1 with h1 | h1 <;> simp [resolver.TeamMembers, h1, h2]
  · intro h1 h2 h3 h4
    rcases h1 with h1 | h1 <;> simp [resolver.TeamMembers, h1, h2, h3, h4]
  · unfold resolver.TeamMembers
    dsimp only
    split_ifs <;> (repeat' split) <;> simp_all [Call.isDataFetch]
  · intro h; simp [resolver.ChannelsLeft, h]
  · unfold resolver.ChannelsLeft
    dsimp only
    split_ifs <;> (repeat' split) <;> simp_all
  · intro h1 h2; simp [resolver.ChannelMembers, h1, h2]
  · intro h1 h2; simp [resolver.ChannelMembers, h1, h2]
  · unfold resolver.ChannelMembers ensureFirst
    dsimp only
    split_ifs <;> (repeat' split) <;> simp_all
  · intro h1 h2 h3 h4; simp [channelMember.Channel, h1, h2, h3, h4]
  · intro h1 h2 h3; simp [channelMember.Channel, h1, h2, h3]
  · unfold channelMember.Channel
    dsimp only
    split_ifs <;> (repeat' split) <;> simp_all

theorem authorization_first_witness :
    (resolver.Channels sampleDeps (some (sampleContext false)) (sampleChannelsArgs 10 [])).calls = [] ∧
    (∀ call ∈ (resolver.TeamMembers sampleDeps (some (sampleContext false)) ⟨[117], [116]⟩).calls,
      call.isDataFetch = false) ∧
    resolver.ChannelsLeft sampleDeps (some (sampleContext false)) ⟨[117], 0⟩ =
      ⟨.error (.permission .PermissionEditOtherUsers), []⟩ ∧
    resolver.ChannelMembers sampleDeps (some (sampleContext false)) ⟨[117], [99], 10, [], 0⟩ =
      ⟨.error (.permission .PermissionReadChannel), []⟩ ∧
    channelMember.Channel sampleDeps (some (sampleContext false)) ⟨[99], [117], []⟩ =
      ⟨.error (.permission .PermissionReadChannel), [.GetChannel [99]]⟩ :=
  ⟨(authorization_first sampleDeps (sampleContext false) .PermissionEditOtherUsers
      (sampleChannelsArgs 10 []) ⟨[117], [116]⟩ ⟨[117], 0⟩ ⟨[117], [99], 10, [], 0⟩
      ⟨[99], [117], []⟩ ⟨[99], [80], [116]⟩).1.2.2 rfl,
   (authorization_first sampleDeps (sampleContext false) .PermissionReadOtherUsersTeams
      (sampleChannelsArgs 10 []) ⟨[117], [116]⟩ ⟨[117], 0⟩ ⟨[117], [99], 10, [], 0⟩
      ⟨[99], [117], []⟩ ⟨[99], [80], [116]⟩).2.1.2.2.2 rfl,
   (authorization_first sampleDeps (sampleContext false) .PermissionEditOtherUsers
      (sampleChannelsArgs 10 []) ⟨[117], [116]⟩ ⟨[117], 0⟩ ⟨[117], [99], 10, [], 0⟩
      ⟨[99], [117], []⟩ ⟨[99], [80], [116]⟩).2.2.1.1 rfl,
   (authorization_first sampleDeps (sampleContext false) .PermissionReadChannel
      (sampleChannelsArgs 10 []) ⟨[117], [116]⟩ ⟨[117], 0⟩ ⟨[117], [99], 10, [], 0⟩
      ⟨[99], [117], []⟩ ⟨[99], [80], [116]⟩).2.2.2.1.1 (by decide) rfl,
   (authorization_first sampleDeps (sampleContext false) .PermissionReadChannel
      (sampleChannelsArgs 10 []) ⟨[117], [116]⟩ ⟨[117], 0⟩ ⟨[117], [99], 10, [], 0⟩
      ⟨[99], [117], []⟩ ⟨[99], [80], [116]⟩).2.2.2.2.2.1 rfl (by decide) rfl⟩

/-- C5 as stated fails for `channelMember.Channel`: on a private channel
that the session may not read, it returns the permission error after the
data-fetch call `GetChannel` has been made. -/
theorem channel_fetched_before_denial :
    (channelMember.Channel sampleDeps (some (sampleContext false)) ⟨[99], [117], []⟩).result =
      .error (.permission .PermissionReadChannel) ∧
    (channelMember.Channel sampleDeps (some (sampleContext false)) ⟨[99], [117], []⟩).calls =
      [.GetChannel [99]] ∧
    (Call.GetChannel [99]).isDataFetch = true := by
  refine ⟨rfl, rfl, rfl⟩

theorem Channels_passed (d : Deps) (c : Context) (a1 : ChannelsArgs)
    (hauth : ∀ p, (resolver.Channels d (some c) a1).result ≠ .error (.permission p)) :
    c.App.SessionHasPermissionToUser c.Session
        (resolveMe d c a1.UserID) = true ∧
      (a1.TeamID = [] ∨
        c.App.SessionHasPermissionToTeam c.Session a1.TeamID .PermissionViewTeam = true) := by
  constructor
  · by_contra hu
    exact hauth .PermissionEditOtherUsers (by simp [resolver.Channels, hu])
  · by_contra ht
    have hu : c.App.SessionHasPermissionToUser c.Session
        (resolveMe d c a1.UserID) = true := by
      by_contra hu
      exact hauth .PermissionEditOtherUsers (by simp [resolver.Channels, hu])
    push_neg at ht
    exact hauth .PermissionViewTeam (by simp [resolver.Channels, hu, ht.1, ht.2])

theorem ChannelMembers_passed (d : Deps) (c : Context) (a2 : ChannelMembersArgs)
    (hlist : a2.ChannelID = [])
    (hauth : ∀ p, (resolver.ChannelMembers d (some c) a2).result ≠ .error (.permission p)) :
    c.App.SessionHasPermissionToUser c.Session
        (resolveMe d c a2.UserID) = true := by
  by_contra hu
  exact hauth .PermissionEditOtherUsers (by simp [resolver.ChannelMembers, hlist, hu])

set_option maxHeartbeats 3200000 in
theorem Channels_page_size (d : Deps) (c : Context) (a1 : ChannelsArgs)
    (hd1 : 1 ≤ d.PerPageDefault) (hd2 : d.PerPageDefault ≤ d.PerPageMaximum) (hf1 : 0 ≤ a1.First)
    (hauth1 : ∀ p, (resolver.Channels d (some c) a1).result ≠ .error (.permission p)) :
    ((resolver.Channels d (some c) a1).result = .error (.firstTooHigh a1.First d.PerPageMaximum) ↔
        d.PerPageMaximum < a1.First) ∧
      (d.PerPageMaximum < a1.First → (resolver.Channels d (some c) a1).calls = []) ∧
      (∀ call ∈ (resolver.Channels d (some c) a1).calls, ∀ l, call.limit? = some l →
        l = (if a1.First = 0 then d.PerPageDefault else a1.First) ∧ 1 ≤ l ∧ l ≤ d.PerPageMaximum) ∧
      (a1.First ≤ d.PerPageMaximum →
        (a1.After = [] ∨ (d.parseChannelCursor a1.After).2 = true) →
        (resolver.Channels d (some c) a1).calls.head? =
          some (.GetChannelsForTeamForUserWithCursor a1.TeamID (resolveMe d c a1.UserID)
            { IncludeDeleted := a1.IncludeDeleted, LastDeleteAt := a1.LastDeleteAt,
              LastUpdateAt := a1.LastUpdateAt,
              PerPage := some (if a1.First = 0 then d.PerPageDefault else a1.First) }
            (if a1.After = [] then [] else (d.parseChannelCursor a1.After).1))) ∧
      (a1.First ≤ d.PerPageMaximum → a1.After ≠ [] → (d.parseChannelCursor a1.After).2 = false →
        resolver.Channels d (some c) a1 = ⟨.error (.afterCursorFormat a1.After), []⟩) := by
  obtain ⟨hu1, ht1⟩ := Channels_passed d c a1 hauth1
  have ht1' : (decide (a1.TeamID ≠ []) &&
      !c.App.SessionHasPermissionToTeam c.Session a1.TeamID .PermissionViewTeam) = false := by
    rcases ht1 with h | h <;> simp [h]
  clear hauth1
  unfold resolver.Channels ensureFirst
  simp only [hu1, ht1', Bool.not_true, Bool.false_eq_true, if_false]
  by_cases hgt : d.PerPageMaximum < a1.First
  · have h0 : a1.First ≠ 0 := by omega
    have hle : ¬ a1.First ≤ d.PerPageMaximum := by omega
    simp [h0, hgt, hle]
  · have hgt' : ¬ a1.First > d.PerPageMaximum := hgt
    have hlim : (if a1.First = 0 then Except.ok d.PerPageDefault
        else if a1.First > d.PerPageMaximum then
          Except.error (Error.firstTooHigh a1.First d.PerPageMaximum)
        else Except.ok a1.First) =
        (Except.ok (if a1.First = 0 then d.PerPageDefault else a1.First) : Except Error Int) := by
      by_cases h0 : a1.First = 0 <;> simp [h0, hgt']
    have hb : 1 ≤ (if a1.First = 0 then d.PerPageDefault else a1.First) ∧
        (if a1.First = 0 then d.PerPageDefault else a1.First) ≤ d.PerPageMaximum := by
      by_cases h0 : a1.First = 0 <;> simp [h0] <;> omega
    rw [hlim]
    generalize (if a1.First = 0 then d.PerPageDefault else a1.First) = lim at hb ⊢
    simp only [hgt, false_imp_iff, true_and]
    by_cases ha : a1.After = []
    · simp only [ha, ne_eq, not_true_eq_false, if_false, if_true]
      refine ⟨?_, ?_, ?_, ?_⟩
      · (repeat' split) <;> simp_all
      · (repeat' split) <;> simp_all [Call.limit?]
      · intro _ _
        (repeat' split) <;> simp_all
      · intro _ h; simp at h
    · rcases hpc : d.parseChannelCursor a1.After with ⟨ch, ok⟩
      cases ok
      · simp [ha, hpc]
      · simp only [ha, hpc, ne_eq, not_false_eq_true, if_true, if_false]
        refine ⟨?_, ?_, ?_, ?_⟩
        · (repeat' split) <;> simp_all
        · (repeat' split) <;> simp_all [Call.limit?]
        · intro _ _
          (repeat' split) <;> simp_all
        · intro _ _ h; simp at h

set_option maxHeartbeats 3200000 in
theorem ChannelMembers_page_size (d : Deps) (c : Context) (a2 : ChannelMembersArgs)
    (hd1 : 1 ≤ d.PerPageDefault) (hd2 : d.PerPageDefault ≤ d.PerPageMaximum) (hf2 : 0 ≤ a2.First)
    (hlist : a2.ChannelID = [])
    (hauth2 : ∀ p, (resolver.ChannelMembers d (some c) a2).result ≠ .error (.permission p)) :
    ((resolver.ChannelMembers d (some c) a2).result = .error (.firstTooHigh a2.First d.PerPageMaximum) ↔
        d.PerPageMaximum < a2.First) ∧
      (d.PerPageMaximum < a2.First → (resolver.ChannelMembers d (some c) a2).calls = []) ∧
      (∀ call ∈ (resolver.ChannelMembers d (some c) a2).calls, ∀ l, call.limit? = some l →
        l = (if a2.First = 0 then d.PerPageDefault else a2.First) ∧ 1 ≤ l ∧ l ≤ d.PerPageMaximum) ∧
      (a2.First ≤ d.PerPageMaximum →
        (a2.After = [] ∨ (parseChannelMemberCursor a2.After).2.2 = true) →
        (resolver.ChannelMembers d (some c) a2).calls =
          [.GetMembersForUserWithCursor (resolveMe d c a2.UserID)
            (if a2.After = [] then [] else (parseChannelMemberCursor a2.After).1)
            (if a2.After = [] then [] else (parseChannelMemberCursor a2.After).2.1)
            (if a2.First = 0 then d.PerPageDefault else a2.First) a2.LastUpdateAt]) ∧
      (a2.First ≤ d.PerPageMaximum → a2.After ≠ [] → (parseChannelMemberCursor a2.After).2.2 = false →
        resolver.ChannelMembers d (some c) a2 = ⟨.error (.afterCursorFormat a2.After), []⟩) := by
  have hu2 := ChannelMembers_passed d c a2 hlist hauth2
  clear hauth2
  unfold resolver.ChannelMembers ensureFirst
  simp only [hu2, hlist, ne_eq, not_true_eq_false, Bool.not_true, Bool.false_eq_true, if_false]
  by_cases hgt : d.PerPageMaximum < a2.First
  · have h0 : a2.First ≠ 0 := by omega
    have hle : ¬ a2.First ≤ d.PerPageMaximum := by omega
    simp [h0, hgt, hle]
  · have hgt' : ¬ a2.First > d.PerPageMaximum := hgt
    have hlim : (if a2.First = 0 then Except.ok d.PerPageDefault
        else if a2.First > d.PerPageMaximum then
          Except.error (Error.firstTooHigh a2.First d.PerPageMaximum)
        else Except.ok a2.First) =
        (Except.ok (if a2.First = 0 then d.PerPageDefault else a2.First) : Except Error Int) := by
      by_cases h0 : a2.First = 0 <;> simp [h0, hgt']
    have hb : 1 ≤ (if a2.First = 0 then d.PerPageDefault else a2.First) ∧
        (if a2.First = 0 then d.PerPageDefault else a2.First) ≤ d.PerPageMaximum := by
      by_cases h0 : a2.First = 0 <;> simp [h0] <;> omega
    rw [hlim]
    generalize (if a2.First = 0 then d.PerPageDefault else a2.First) = lim at hb ⊢
    simp only [hgt, false_imp_iff, true_and]
    by_cases ha : a2.After = []
    · simp only [ha, if_false, if_true]
      refine ⟨?_, ?_, ?_, ?_⟩
      · (repeat' split) <;> simp_all
      · (repeat' split) <;> simp_all [Call.limit?]
      · intro _ _
        (repeat' split) <;> simp_all
      · intro _ h; simp at h
    · rcases hpc : parseChannelMemberCursor a2.After with ⟨ch, us, ok⟩
      cases ok
      · simp [ha, hpc]
      · simp only [ha, hpc, if_true, if_false]
        refine ⟨?_, ?_, ?_, ?_⟩
        · (repeat' split) <;> simp_all
        · (repeat' split) <;> simp_all [Call.limit?]
        · intro _ _
          (repeat' split) <;> simp_all
        · intro _ _ h; simp at h

/-- C6, as amended: in `resolver.Channels` and in the list mode of
`resolver.ChannelMembers`, for every request that passes authorization with
`First ≥ 0`: the page-size error is returned exactly when `First` exceeds
`web.PerPageMaximum`, and then nothing has been called; every limit handed
to the store is `First`, or `web.PerPageDefault` when `First = 0`, and lies
in `[1, web.PerPageMaximum]`; with `First` within the maximum and an `After`
cursor that is empty or well-formed, the store is called first, with that
limit and the fields of the cursor; and a malformed `After` cursor is
rejected with the cursor-format error, nothing having been called. -/
theorem page_size_validation (d : Deps) (c : Context) (a1 : ChannelsArgs) (a2 : ChannelMembersArgs)
    (hd : 1 ≤ d.PerPageDefault ∧ d.PerPageDefault ≤ d.PerPageMaximum)
    (hf1 : 0 ≤ a1.First) (hf2 : 0 ≤ a2.First) (hlist : a2.ChannelID = [])
    (hauth1 : ∀ p, (resolver.Channels d (some c) a1).result ≠ .error (.permission p))
    (hauth2 : ∀ p, (resolver.ChannelMembers d (some c) a2).result ≠ .error (.permission p)) :
    (((resolver.Channels d (some c) a1).result = .error (.firstTooHigh a1.First d.PerPageMaximum) ↔
        d.PerPageMaximum < a1.First) ∧
      (d.PerPageMaximum < a1.First → (resolver.Channels d (some c) a1).calls = []) ∧
      (∀ call ∈ (resolver.Channels d (some c) a1).calls, ∀ l, call.limit? = some l →
        l = (if a1.First = 0 then d.PerPageDefault else a1.First) ∧ 1 ≤ l ∧ l ≤ d.PerPageMaximum) ∧
      (a1.First ≤ d.PerPageMaximum →
        (a1.After = [] ∨ (d.parseChannelCursor a1.After).2 = true) →
        (resolver.Channels d (some c) a1).calls.head? =
          some (.GetChannelsForTeamForUserWithCursor a1.TeamID (resolveMe d c a1.UserID)
            { IncludeDeleted := a1.IncludeDeleted, LastDeleteAt := a1.LastDeleteAt,
              LastUpdateAt := a1.LastUpdateAt,
              PerPage := some (if a1.First = 0 then d.PerPageDefault else a1.First) }
            (if a1.After = [] then [] else (d.parseChannelCursor a1.After).1))) ∧
      (a1.First ≤ d.PerPageMaximum → a1.After ≠ [] → (d.parseChannelCursor a1.After).2 = false →
        resolver.Channels d (some c) a1 = ⟨.error (.afterCursorFormat a1.After), []⟩)) ∧
    (((resolver.ChannelMembers d (some c) a2).result = .error (.firstTooHigh a2.First d.PerPageMaximum) ↔
        d.PerPageMaximum < a2.First) ∧
      (d.PerPageMaximum < a2.First → (resolver.ChannelMembers d (some c) a2).calls = []) ∧
      (∀ call ∈ (resolver.ChannelMembers d (some c) a2).calls, ∀ l, call.limit? = some l →
        l = (if a2.First = 0 then d.PerPageDefault else a2.First) ∧ 1 ≤ l ∧ l ≤ d.PerPageMaximum) ∧
      (a2.First ≤ d.PerPageMaximum →
        (a2.After = [] ∨ (parseChannelMemberCursor a2.After).2.2 = true) →
        (resolver.ChannelMembers d (some c) a2).calls =
          [.GetMembersForUserWithCursor (resolveMe d c a2.UserID)
            (if a2.After = [] then [] else (parseChannelMemberCursor a2.After).1)
            (if a2.After = [] then [] else (parseChannelMemberCursor a2.After).2.1)
            (if a2.First = 0 then d.PerPageDefault else a2.First) a2.LastUpdateAt]) ∧
      (a2.First ≤ d.PerPageMaximum → a2.After ≠ [] → (parseChannelMemberCursor a2.After).2.2 = false →
        resolver.ChannelMembers d (some c) a2 = ⟨.error (.afterCursorFormat a2.After), []⟩)) :=
  ⟨Channels_page_size d c a1 hd.1 hd.2 hf1 hauth1,
   ChannelMembers_page_size d c a2 hd.1 hd.2 hf2 hlist hauth2⟩

theorem page_size_validation_witness :
    (resolver.Channels sampleDeps (some (sampleContext true)) (sampleChannelsArgs 0 [])).calls.head? =
      some (.GetChannelsForTeamForUserWithCursor [116] [117]
        { IncludeDeleted := false, LastDeleteAt := 0, LastUpdateAt := 0, PerPage := some 60 } []) ∧
    resolver.ChannelMembers sampleDeps (some (sampleContext true)) (sampleChannelMembersArgs 10 [33]) =
      ⟨.error (.afterCursorFormat [33]), []⟩ :=
  ⟨(page_size_validation sampleDeps (sampleContext true) (sampleChannelsArgs 0 [])
      (sampleChannelMembersArgs 10 [33]) (by decide) (by decide) (by decide) rfl
      (fun p h => by cases h) (fun p h => by cases h)).1.2.2.2.1 (by decide) (Or.inl rfl),
   (page_size_validation sampleDeps (sampleContext true) (sampleChannelsArgs 0 [])
      (sampleChannelMembersArgs 10 [33]) (by decide) (by decide) (by decide) rfl
      (fun p h => by cases h) (fun p h => by cases h)).2.2.2.2.2 (by decide) (by decide) (by decide)⟩

/-- C6 as stated fails: with `First = -1` both resolvers hand the limit
`-1` to the store, outside `[1, web.PerPageMaximum]`; and a request with
`First = 10` and the malformed cursor `!` is rejected with an error, with
nothing fetched, although `First` does not exceed the maximum of 200. -/
theorem page_size_negative_first :
    (resolver.Channels sampleDeps (some (sampleContext true)) (sampleChannelsArgs (-1) [])).calls.map
        Call.limit? = [some (-1), none, none] ∧
    (resolver.ChannelMembers sampleDeps (some (sampleContext true))
        (sampleChannelMembersArgs (-1) [])).calls.map Call.limit? = [some (-1)] ∧
    ¬ ((1 : Int) ≤ -1) ∧
    (resolver.ChannelMembers sampleDeps (some (sampleContext true))
        (sampleChannelMembersArgs 10 [33])).result = .error (.afterCursorFormat [33]) ∧
    (resolver.ChannelMembers sampleDeps (some (sampleContext true))
        (sampleChannelMembersArgs 10 [33])).calls = [] ∧
    ¬ (sampleDeps.PerPageMaximum < 10) := by
  refine ⟨rfl, rfl, by decide, rfl, rfl, by decide⟩

/-! ## Theorems on the role batch loader -/

theorem roleMap_foldl (roles : List Role) :
    ∀ (tmp : RoleMap) (name : GoString),
      (name ∈ roles.map Role.Name →
        ∃ r ∈ roles, r.Name = name ∧
          roles.foldl (fun tmp r => fun name => if name = r.Name then some r else tmp name) tmp name =
            some r) ∧
      (name ∉ roles.map Role.Name →
        roles.foldl (fun tmp r => fun name => if name = r.Name then some r else tmp name) tmp name =
          tmp name) := by
  induction roles with
  | nil => intro tmp name; simp
  | cons r rest ih =>
    intro tmp name
    simp only [List.foldl_cons, List.map_cons, List.mem_cons]
    obtain ⟨ih1, ih2⟩ := ih (fun name => if name = r.Name then some r else tmp name) name
    constructor
    · intro hmem
      by_cases hrest : name ∈ rest.map Role.Name
      · obtain ⟨r', hr', hn, he⟩ := ih1 hrest
        exact ⟨r', Or.inr hr', hn, he⟩
      · have hname : name = r.Name := by
          rcases hmem with h | h
          · exact h
          · exact absurd h hrest
        refine ⟨r, Or.inl rfl, hname.symm, ?_⟩
        rw [ih2 hrest]
        simp [hname]
    · intro hmem
      have h1 : name ≠ r.Name := fun h => hmem (Or.inl h)
      have h2 : name ∉ rest.map Role.Name := fun h => hmem (Or.inr h)
      rw [ih2 h2]
      simp [h1]

theorem roleMapOf_mem (roles : List Role) (name : GoString) (h : name ∈ roles.map Role.Name) :
    ∃ r ∈ roles, r.Name = name ∧ roleMapOf roles name = some r :=
  (roleMap_foldl roles (fun _ => none) name).1 h

theorem rewriteRoles_returned (tmp : RoleMap) (roleNames : List GoString) :
    ∀ (i : Nat) (roles : List (Option Role)), i + roleNames.length ≤ roles.length →
      ∃ out, rewriteRoles tmp roleNames i roles = .returned out ∧ out.length = roles.length ∧
        ∀ k : Nat, out[k]? =
          if i ≤ k ∧ k < i + roleNames.length then (roleNames[k - i]?).map tmp else roles[k]? := by
  induction roleNames with
  | nil =>
    intro i roles _
    refine ⟨roles, rfl, rfl, ?_⟩
    intro k
    have : ¬ (i ≤ k ∧ k < i) := by omega
    simp [this]
  | cons n rest ih =>
    intro i roles hlen
    simp only [List.length_cons] at hlen
    have hi : i < roles.length := by omega
    obtain ⟨out, hout, hl, hk⟩ := ih (i + 1) (roles.set i (tmp n)) (by simp; omega)
    refine ⟨out, ?_, ?_, ?_⟩
    · simp only [rewriteRoles, hi, if_true, hout]
    · simpa using hl
    · intro k
      rw [hk k]
      by_cases h1 : k = i
      · subst h1
        simp [hi]
      · by_cases h2 : i + 1 ≤ k ∧ k < i + 1 + rest.length
        · have h3 : i ≤ k ∧ k < i + (rest.length + 1) := by omega
          have h4 : k - i = (k - (i + 1)) + 1 := by omega
          simp only [h2, h3, and_self, if_true, List.length_cons, h4, List.getElem?_cons_succ]
        · have h3 : ¬ (i ≤ k ∧ k < i + (rest.length + 1)) := by omega
          simp only [h2, h3, if_false, List.length_cons]
          rw [List.getElem?_set_ne (Ne.symm h1)]

/-- C7: for every list of distinct role names that `CleanRoleNames` accepts,
whatever the order in which the store returns the roles carrying those
names, one role per name, `getGraphQLRoles` returns a list as long as the
input whose `i`-th element is the returned role named by the `i`-th input
name. -/
theorem getGraphQLRoles_order (d : Deps) (c : Context) (roleNames cleanedRoleNames : List GoString)
    (roles : List Role) (hnodup : roleNames.Nodup)
    (hclean : d.CleanRoleNames roleNames = (cleanedRoleNames, true))
    (hstore : c.App.GetRolesByNames cleanedRoleNames = .ok roles)
    (hperm : (roles.map Role.Name).Perm roleNames) :
    ∃ out, getGraphQLRoles d c roleNames = .returned (.ok out) ∧ out.length = roleNames.length ∧
      ∀ (i : Nat) (hi : i < roleNames.length),
        ∃ r ∈ roles, r.Name = roleNames[i] ∧ out[i]? = some (some r) ∧
          ∀ r' ∈ roles, r'.Name = roleNames[i] → r' = r := by
  have hinj := List.inj_on_of_nodup_map (hperm.nodup_iff.mpr hnodup)
  have hlen : roles.length = roleNames.length := by
    simpa using hperm.length_eq
  obtain ⟨out, hout, hl, hk⟩ :=
    rewriteRoles_returned (roleMapOf roles) roleNames 0 (roles.map some) (by simp [hlen])
  refine ⟨out, ?_, ?_, ?_⟩
  · simp only [getGraphQLRoles, hclean, hstore, hout]
  · simpa [hlen] using hl
  · intro i hi
    have hmem : roleNames[i] ∈ roles.map Role.Name :=
      hperm.symm.subset (List.getElem_mem hi)
    obtain ⟨r, hr, hn, he⟩ := roleMapOf_mem roles roleNames[i] hmem
    refine ⟨r, hr, hn, ?_, fun r' hr' hn' => hinj hr' hr (hn'.trans hn.symm)⟩
    rw [hk i]
    simp [hi, he]

theorem getGraphQLRoles_order_witness :
    ∃ out, getGraphQLRoles sampleDeps (sampleRolesContext [⟨[50], [98]⟩, ⟨[49], [97]⟩]) [[97], [98]] =
        .returned (.ok out) ∧
      out.length = ([[97], [98]] : List GoString).length ∧
      ∀ (i : Nat) (hi : i < ([[97], [98]] : List GoString).length),
        ∃ r ∈ ([⟨[50], [98]⟩, ⟨[49], [97]⟩] : List Role),
          r.Name = ([[97], [98]] : List GoString)[i] ∧ out[i]? = some (some r) ∧
            ∀ r' ∈ ([⟨[50], [98]⟩, ⟨[49], [97]⟩] : List Role),
              r'.Name = ([[97], [98]] : List GoString)[i] → r' = r :=
  getGraphQLRoles_order sampleDeps (sampleRolesContext [⟨[50], [98]⟩, ⟨[49], [97]⟩]) [[97], [98]]
    [[97], [98]] [⟨[50], [98]⟩, ⟨[49], [97]⟩] (by decide) rfl rfl (by decide)

/-- C8, the code at the failing input: asked for the roles `a` and `b`
when the store holds only `a`, `getGraphQLRoles` writes past the end of the
one-element slice the store returned, and `graphQLRolesLoader` panics
instead of returning one entry per key. -/
theorem graphQLRolesLoader_panics_on_missing_role :
    (sampleApp true [⟨[49], [97]⟩]).GetRolesByNames [[97], [98]] = .ok [⟨[49], [97]⟩] ∧
    getGraphQLRoles sampleDeps (sampleRolesContext [⟨[49], [97]⟩]) [[97], [98]] = .panic ∧
    graphQLRolesLoader sampleDeps (some (sampleRolesContext [⟨[49], [97]⟩])) [[97], [98]] = .panic := by
  refine ⟨rfl, rfl, rfl⟩

/-- C9, the code at the failing input: when the thunk of `LoadMany` yields
an error list whose first element is the non-nil error `e`, `Roles_`
returns `(nil, nil)`: no roles and a nil error, the `err` left over from
`getRolesLoader`, instead of `e`. -/
theorem Roles_drops_the_load_error :
    (failingLoader.LoadMany (strings.Split [97] 32)).2 = [some (.upstream { Id := [101] })] ∧
    channelMember.Roles_ (fun roles => strings.Split roles 32) (some failingLoader) ⟨[99], [117], [97]⟩ =
      .returned (none, none) := by
  refine ⟨rfl, rfl⟩
